import Mathlib

/-!
Verification of the open-zone server core (application-protocol engine and
session/host state model) against its natural-language specification.

The Go source is shallowly embedded:
  * Go maps are embedded as association lists `List (K × V)` whose operations
    preserve key-uniqueness; `len` on a Go map corresponds to list length for
    maps built by these operations.
  * `time.Time` is embedded as `Int` (nanoseconds); the zero `time.Time` is
    represented by `0` (the code only ever asks `IsZero` or subtracts times).
  * `uint32` values are embedded as `Nat` with explicit `% 2^32` truncation.
  * Mutation is embedded as explicit state passing: each store operation takes
    the store and returns the updated store.
-/

namespace OpenZone

/-- Association-list map with string keys: lookup returning the Go zero value
`""` for a missing key (Go `m[k]` semantics). -/
def mget (m : List (String × String)) (k : String) : String :=
  match m.find? (fun kv => kv.1 = k) with
  | some kv => kv.2
  | none => ""

/-- Go `_, ok := m[k]` membership test. -/
def mhas (m : List (String × String)) (k : String) : Bool :=
  (m.find? (fun kv => kv.1 = k)).isSome

/-- Go `m[k] = v`: overwrite in place if the key exists, append otherwise
(list length thus matches Go `len(m)` for maps built from the empty map). -/
def mset (m : List (String × String)) (k v : String) : List (String × String) :=
  if mhas m k then
    m.map (fun kv => if kv.1 = k then (k, v) else kv)
  else
    m ++ [(k, v)]

/-- Go `delete(m, k)`. -/
def merase (m : List (String × String)) (k : String) : List (String × String) :=
  m.filter (fun kv => kv.1 ≠ k)

end OpenZone

namespace OpenZone

/-- One `state.Player` registry entry (player_store.go). `ConnectedAt` and
`EvictedAt` are `time.Time`; the zero time is represented by `0`. -/
structure Player where
  dpnid : Nat
  connectedAt : Int
  evictedAt : Int
deriving Repr, DecidableEq

/-- `state.PlayerStore`: map from DPNID to Player. -/
structure PlayerStore where
  players : List (Nat × Player)
deriving Repr, DecidableEq

/-- `state.NewPlayerStore`. -/
def NewPlayerStore : PlayerStore := ⟨[]⟩

/-- Lookup in the players map (Go `p, ok := s.players[dpnid]`). -/
def PlayerStore.lookup (s : PlayerStore) (dpnid : Nat) : Option Player :=
  match s.players.find? (fun kv => kv.1 = dpnid) with
  | some kv => some kv.2
  | none => none

/-- Go `s.players[dpnid] = p` map write. -/
def PlayerStore.put (s : PlayerStore) (dpnid : Nat) (p : Player) : PlayerStore :=
  if (s.players.find? (fun kv => kv.1 = dpnid)).isSome then
    ⟨s.players.map (fun kv => if kv.1 = dpnid then (dpnid, p) else kv)⟩
  else
    ⟨s.players ++ [(dpnid, p)]⟩

/-- `PlayerStore.Upsert(dpnid, now)`. `wall` is the value `time.Now().UTC()`
would return, used only when `now` is the zero time. -/
def PlayerStore.Upsert (s : PlayerStore) (dpnid : Nat) (now wall : Int) : PlayerStore :=
  let now := if now = 0 then wall else now
  match s.lookup dpnid with
  | some p => if p.evictedAt ≠ 0 then s else s.put dpnid ⟨dpnid, now, 0⟩
  | none => s.put dpnid ⟨dpnid, now, 0⟩

/-- `PlayerStore.Remove(dpnid)`. -/
def PlayerStore.Remove (s : PlayerStore) (dpnid : Nat) : PlayerStore × Bool :=
  (⟨s.players.filter (fun kv => kv.1 ≠ dpnid)⟩, (s.lookup dpnid).isSome)

/-- `PlayerStore.Count()`: entries whose eviction timestamp is unset. -/
def PlayerStore.Count (s : PlayerStore) : Nat :=
  (s.players.filter (fun kv => kv.2.evictedAt = 0)).length

/-- `PlayerStore.IsEvicted(dpnid)`. -/
def PlayerStore.IsEvicted (s : PlayerStore) (dpnid : Nat) : Bool :=
  match s.lookup dpnid with
  | some p => p.evictedAt ≠ 0
  | none => false

/-- Per-entry transformation performed by the `SweepEvict` loop body:
returns the updated entry and whether it was newly evicted. -/
def sweepStep (now maxAge : Int) (p : Player) : Player × Bool :=
  if p.evictedAt ≠ 0 then (p, false)
  else if p.connectedAt = 0 then ({ p with evictedAt := now }, true)
  else if maxAge ≤ now - p.connectedAt then ({ p with evictedAt := now }, true)
  else (p, false)

/-- `PlayerStore.SweepEvict(now, maxAge)`; returns the updated store and the
newly evicted DPNIDs. `wall` plays the role of `time.Now().UTC()` when `now`
is the zero time. -/
def PlayerStore.SweepEvict (s : PlayerStore) (now wall maxAge : Int) :
    PlayerStore × List Nat :=
  if maxAge ≤ 0 then (s, [])
  else
    let now := if now = 0 then wall else now
    (⟨s.players.map (fun kv => (kv.1, (sweepStep now maxAge kv.2).1))⟩,
     (s.players.filter (fun kv => (sweepStep now maxAge kv.2).2)).map (fun kv => kv.1))

end OpenZone

namespace OpenZone

/-- ASCII model of Go `unicode.IsSpace` for the characters that occur on this
wire protocol (space, tab, newline, carriage return, vertical tab, form feed). -/
def isSpaceGo (c : Char) : Bool :=
  c = ' ' ∨ c = '\t' ∨ c = '\n' ∨ c = '\r' ∨ c = '\x0b' ∨ c = '\x0c'

/-- Left half of Go `strings.TrimSpace`. -/
def trimLeftChars (l : List Char) : List Char := l.dropWhile isSpaceGo

/-- Right half of Go `strings.TrimSpace`. -/
def trimRightChars (l : List Char) : List Char :=
  (l.reverse.dropWhile isSpaceGo).reverse

/-- Go `strings.TrimSpace` on a character list. -/
def trimChars (l : List Char) : List Char := trimRightChars (trimLeftChars l)

/-- Go `strings.TrimSuffix(s, "/")`. -/
def trimSuffixSlash (l : List Char) : List Char :=
  if l.getLast? = some '/' then l.dropLast else l

/-- Go `strings.Index(l, pat)` recast as a split: returns the part strictly
before the first occurrence of `pat` and the part strictly after it. -/
def splitAtSub (pat : List Char) (l : List Char) : Option (List Char × List Char) :=
  if pat.isPrefixOf l then some ([], l.drop pat.length)
  else
    match l with
    | [] => none
    | c :: t =>
      match splitAtSub pat t with
      | some (pre, post) => some (c :: pre, post)
      | none => none

end OpenZone

namespace OpenZone

/-- The `key="value"` scanning loop shared verbatim by `state.parseAttrs`
(host_store.go) and `proto.Parse` (xmlish.go): find `=\"`, take the trimmed
text before it as the key, take up to the next `\"` as the value, then
continue on the trimmed remainder.  Stops when either quote is missing.
The `fuel` argument only makes the recursion structural: every iteration of
the Go loop consumes at least the two characters `=\"`, so any fuel larger
than the remaining length computes the loop's result
(`attrScanLoop_fuel_irrel` below). -/
def attrScanLoop : Nat → List (String × String) → List Char → List (String × String)
  | 0, attrs, _ => attrs
  | fuel + 1, attrs, rest =>
    match splitAtSub ['=', '"'] rest with
    | none => attrs
    | some (pre, post) =>
      let key := String.mk (trimChars pre)
      let val := post.takeWhile (fun c => c ≠ '"')
      match post.dropWhile (fun c => c ≠ '"') with
      | [] => attrs
      | _ :: tail =>
        attrScanLoop fuel (if key ≠ "" then mset attrs key (String.mk val) else attrs)
          (trimChars tail)

/-- `state.parseAttrs` (host_store.go): trim, drop one trailing `/`, trim,
then run the scanning loop on an empty map. -/
def parseAttrs (l : List Char) : List (String × String) :=
  attrScanLoop (l.length + 1) [] (trimChars (trimSuffixSlash (trimChars l)))

/-- Loop of `state.scanSelfClosingElements`: find the next `<` ++ `name`,
find the closing `>` (the needle itself contains none, so the first `>` at or
after the needle is the first `>` after it; the Go re-check
`strings.HasPrefix(tag, name)` is therefore always true), keep the element
only when its text contains a `/` (self-closing) and its attributes are
non-empty, and continue after the `>`. -/
def scanItems : Nat → List Char → List Char → List (List (String × String))
  | 0, _, _ => []
  | fuel + 1, name, l =>
    match splitAtSub ('<' :: name) l with
    | none => []
    | some (_, after) =>
      let mid := after.takeWhile (fun c => c ≠ '>')
      match after.dropWhile (fun c => c ≠ '>') with
      | [] => []
      | _ :: restAfter =>
        if (name ++ mid).contains '/' then
          let attrs := parseAttrs mid
          (if attrs.length > 0 then [attrs] else []) ++ scanItems fuel name restAfter
        else
          scanItems fuel name restAfter

/-- `state.scanSelfClosingElements(payload, name)`. -/
def scanSelfClosingElements (payload name : String) :
    List (List (String × String)) :=
  scanItems (payload.toList.length + 1) name.toList payload.toList

end OpenZone

namespace OpenZone

/-- `proto.Msg` (xmlish.go). -/
structure Msg where
  tag : String
  attrs : List (String × String)
  raw : String
deriving Repr, DecidableEq

/-- The character set of `strings.IndexAny(head, " \t\r\n")` in `proto.Parse`. -/
def isCutWs (c : Char) : Bool :=
  c = ' ' ∨ c = '\t' ∨ c = '\r' ∨ c = '\n'

/-- `proto.Parse` (xmlish.go): trim, require a leading `<`, drop trailing
NULs, require a closing `>`, decode the outer element head into tag and
attributes, and keep the whole NUL-trimmed text as `Raw`. -/
def Parse (s : String) : Option Msg :=
  match trimChars s.toList with
  | [] => none
  | c :: rest0 =>
    if c ≠ '<' then none
    else
      let l := (((c :: rest0).reverse.dropWhile (fun ch => ch = '\x00')).reverse)
      match splitAtSub ['>'] l with
      | none => none
      | some (pre, _) =>
        let head0 := trimChars (pre.drop 1)
        if head0 = [] then none
        else
          let head1 := trimChars (trimSuffixSlash head0)
          if head1 = [] then none
          else
            let tag := head1.takeWhile (fun ch => ¬ isCutWs ch)
            let headRest :=
              match head1.dropWhile (fun ch => ¬ isCutWs ch) with
              | [] => []
              | _ :: t => t
            if tag = [] then none
            else
              some ⟨String.mk tag, attrScanLoop (headRest.length + 1) [] (trimChars headRest),
                    String.mk l⟩

end OpenZone

namespace OpenZone

/-- Generic association-list lookup (Go `v, ok := m[k]`). -/
def aget {α β : Type} [DecidableEq α] (m : List (α × β)) (k : α) : Option β :=
  match m.find? (fun kv => kv.1 = k) with
  | some kv => some kv.2
  | none => none

/-- Generic association-list write (Go `m[k] = v`): overwrite in place or
append, preserving key-uniqueness. -/
def aset {α β : Type} [DecidableEq α] (m : List (α × β)) (k : α) (v : β) :
    List (α × β) :=
  if (m.find? (fun kv => kv.1 = k)).isSome then
    m.map (fun kv => if kv.1 = k then (k, v) else kv)
  else
    m ++ [(k, v)]

/-- Generic association-list delete (Go `delete(m, k)`). -/
def aerase {α β : Type} [DecidableEq α] (m : List (α × β)) (k : α) :
    List (α × β) :=
  m.filter (fun kv => kv.1 ≠ k)

/-- Go `strings.TrimSpace` on a `String`. -/
def trimString (s : String) : String := String.mk (trimChars s.toList)

/-- Go `strings.FieldsFunc(l, p)`: maximal runs of characters not satisfying
`p`; never yields empty fields.  `acc` accumulates the current field in
reverse. -/
def fieldsByAux (p : Char → Bool) : List Char → List Char → List (List Char)
  | [], acc => if acc = [] then [] else [acc.reverse]
  | c :: t, acc =>
    if p c then
      if acc = [] then fieldsByAux p t [] else acc.reverse :: fieldsByAux p t []
    else fieldsByAux p t (c :: acc)

def fieldsBy (p : Char → Bool) (l : List Char) : List (List Char) :=
  fieldsByAux p l []

/-- Split keeping empty fields (used to model `net.ParseIP`'s field
splitting on `.` and `:`). -/
def splitOnCharAux (c : Char) : List Char → List Char → List (List Char)
  | [], acc => [acc.reverse]
  | x :: t, acc =>
    if x = c then acc.reverse :: splitOnCharAux c t []
    else splitOnCharAux c t (x :: acc)

def splitOnChar (c : Char) (l : List Char) : List (List Char) :=
  splitOnCharAux c l []

end OpenZone

namespace OpenZone

/-- Result of Go `net.ParseIP`: a 4-byte or a 16-byte address, the latter as
eight 16-bit groups.  A parsed IPv4 address and a v4-mapped IPv6 address are
both represented with the `v4` constructor, mirroring `IP.To4`. -/
inductive GoIP where
  | v4 (a b c d : Nat)
  | v6 (gs : List Nat)
deriving Repr, DecidableEq

/-- One dotted-decimal field of an IPv4 literal: 1-3 digits, value at most
255, and (Go 1.17+) no leading zero. -/
def parseV4Field (s : List Char) : Option Nat :=
  if s = [] then none
  else if 3 < s.length then none
  else if ¬ s.all (fun c => c.isDigit) then none
  else if 1 < s.length ∧ s.head? = some '0' then none
  else
    let v := s.foldl (fun a c => a * 10 + (c.toNat - 48)) 0
    if v ≤ 255 then some v else none

/-- Go IPv4 literal parsing: exactly four dotted fields. -/
def parseV4 (l : List Char) : Option (Nat × Nat × Nat × Nat) :=
  match (splitOnChar '.' l).map parseV4Field with
  | [some a, some b, some c, some d] => some (a, b, c, d)
  | _ => none

def isHexDigitGo (c : Char) : Bool :=
  c.isDigit ∨ ('a' ≤ c ∧ c ≤ 'f') ∨ ('A' ≤ c ∧ c ≤ 'F')

def hexVal (c : Char) : Nat :=
  if c.isDigit then c.toNat - 48
  else if 'a' ≤ c ∧ c ≤ 'f' then c.toNat - 87
  else c.toNat - 55

/-- One 16-bit group of an IPv6 literal: 1-4 hexadecimal digits. -/
def parseHexGroup (s : List Char) : Option Nat :=
  if s = [] then none
  else if 4 < s.length then none
  else if ¬ s.all isHexDigitGo then none
  else some (s.foldl (fun a c => a * 16 + hexVal c) 0)

/-- One colon-separated run of IPv6 groups; a trailing dotted-quad counts as
two groups and is only allowed at the very end (`allowV4`). -/
def parseV6Parts (allowV4 : Bool) : List (List Char) → Option (List Nat)
  | [] => some []
  | [p] =>
    if p.contains '.' then
      if allowV4 then
        match parseV4 p with
        | some (a, b, c, d) => some [a * 256 + b, c * 256 + d]
        | none => none
      else none
    else (parseHexGroup p).map (fun g => [g])
  | p :: q :: rest =>
    match parseHexGroup p, parseV6Parts allowV4 (q :: rest) with
    | some g, some gs => some (g :: gs)
    | _, _ => none

def parseV6Side (allowV4 : Bool) (l : List Char) : Option (List Nat) :=
  if l = [] then some [] else parseV6Parts allowV4 (splitOnChar ':' l)

/-- Go IPv6 literal parsing: at most one `::`, each other group 1-4 hex
digits, an optional trailing embedded dotted-quad, eight groups in total
(with `::` standing for at least one zero group). -/
def parseV6 (l : List Char) : Option (List Nat) :=
  match splitAtSub [':', ':'] l with
  | some (left, right) =>
    if (splitAtSub [':', ':'] right).isSome then none
    else
      match parseV6Side false left, parseV6Side true right with
      | some lg, some rg =>
        if lg.length + rg.length ≤ 7 then
          some (lg ++ List.replicate (8 - lg.length - rg.length) 0 ++ rg)
        else none
      | _, _ => none
  | none =>
    match parseV6Side true l with
    | some gs => if gs.length = 8 then some gs else none
    | none => none

/-- `IP.To4` canonicalisation: a v4-mapped 16-byte address is a 4-byte one. -/
def canonV6 (gs : List Nat) : GoIP :=
  if gs.take 5 = [0, 0, 0, 0, 0] ∧ (gs.drop 5).head? = some 0xffff then
    match gs.drop 6 with
    | [hi, lo] => GoIP.v4 (hi / 256) (hi % 256) (lo / 256) (lo % 256)
    | _ => GoIP.v6 gs
  else GoIP.v6 gs

/-- Go `net.ParseIP`: the first `.` or `:` decides between the IPv4 and the
IPv6 grammar; anything else is not an address. -/
def parseIP (s : String) : Option GoIP :=
  let l := s.toList
  match l.find? (fun c => c = '.' ∨ c = ':') with
  | some c =>
    if c = '.' then
      match parseV4 l with
      | some (a, b, cc, d) => some (GoIP.v4 a b cc d)
      | none => none
    else (parseV6 l).map canonV6
  | none => none

/-- Go `IP.IsLoopback`: `127.0.0.0/8` or `::1`. -/
def isLoopbackIP : GoIP → Bool
  | GoIP.v4 a _ _ _ => a = 127
  | GoIP.v6 gs => gs = [0, 0, 0, 0, 0, 0, 0, 1]

/-- Go `IP.IsPrivate`: RFC 1918 for IPv4 (`10/8`, `172.16/12`, `192.168/16`)
or RFC 4193 (`fc00::/7`) for IPv6. -/
def isPrivateGoIP : GoIP → Bool
  | GoIP.v4 a b _ _ => a = 10 ∨ (a = 172 ∧ 16 ≤ b ∧ b ≤ 31) ∨ (a = 192 ∧ b = 168)
  | GoIP.v6 gs => (gs.headD 0) / 256 % 2 ^ 8 &&& 0xfe = 0xfc

/-- `state.isPrivateIP` (host_store): loopback and RFC 1918 private
addresses, with unparseable input treated as private to avoid leaking. -/
def isPrivateIP (s : String) : Bool :=
  match parseIP (trimString s) with
  | none => true
  | some ip => isLoopbackIP ip ∨ isPrivateGoIP ip

end OpenZone

namespace OpenZone

/-- `state.hostSession` (host_store): one hosting peer's reconciled state.
`rid` is the server-assigned row id (a `uint32` kept below `INT_MAX`). -/
structure HostSession where
  lastUpdate : Int
  rid : Nat
  location : String
  observedRemoteIP : String
  server : List (String × String)
  players : List (String × List (String × String))
deriving Repr, DecidableEq

/-- `state.HostStore`: DPNID-keyed host sessions plus the row-id allocator. -/
structure HostStore where
  hosts : List (Nat × HostSession)
  nextRid : Nat
deriving Repr, DecidableEq

/-- `state.NewHostStore`. -/
def NewHostStore : HostStore := ⟨[], 1⟩

/-- `HostStore.getOrCreateLocked(from)`: fetch the peer's session or create
one, assigning the next row id; the allocator resets to 1 when it is 0 or
would reach `0x7fffffff`.  Returns the updated store and the session. -/
def HostStore.getOrCreateLocked (s : HostStore) (fromId : Nat) :
    HostStore × HostSession :=
  match aget s.hosts fromId with
  | some h => (s, h)
  | none =>
    let nr := if s.nextRid = 0 ∨ 0x7fffffff ≤ s.nextRid then 1 else s.nextRid
    let h : HostSession :=
      { lastUpdate := 0, rid := nr, location := "", observedRemoteIP := "",
        server := [], players := [] }
    ({ hosts := aset s.hosts fromId h, nextRid := nr + 1 }, h)

/-- `HostStore.SetLoc(from, location)`; `now` stands for the
`time.Now().UTC()` call inside. -/
def HostStore.SetLoc (s : HostStore) (fromId : Nat) (location : String)
    (now : Int) : HostStore :=
  let (s1, h) := s.getOrCreateLocked fromId
  { s1 with
    hosts := aset s1.hosts fromId { h with location := location, lastUpdate := now } }

/-- `HostStore.SetObservedRemoteIP(from, ip)`. -/
def HostStore.SetObservedRemoteIP (s : HostStore) (fromId : Nat) (ip : String)
    (now : Int) : HostStore :=
  let ip := trimString ip
  if ip = "" then s
  else
    let (s1, h) := s.getOrCreateLocked fromId
    { s1 with
      hosts := aset s1.hosts fromId
        { h with observedRemoteIP := ip, lastUpdate := now } }

/-- Merge an item's attributes into a field map, skipping the `ItemId` key
(the upsert bodies of `ApplyHostData`). -/
def mergeItemAttrs (dst : List (String × String)) (attrs : List (String × String)) :
    List (String × String) :=
  attrs.foldl (fun m kv => if kv.1 = "ItemId" then m else mset m kv.1 kv.2) dst

/-- One iteration of the `ApplyHostData` item loop.  The Go loop mutates the
session through a live pointer and may `delete` the session from the map
mid-loop; later iterations keep mutating the (now unmapped) session, which is
then never re-inserted.  This is modelled by threading the session value plus
an `inMap` flag: the final store keeps the final session iff `inMap` is still
true.  `attrs.length` is Go `len(attrs)` (parseAttrs yields unique keys). -/
def applyHostItem (st : HostSession × Bool) (attrs : List (String × String)) :
    HostSession × Bool :=
  let h := st.1
  let inMap := st.2
  let itemID := mget attrs "ItemId"
  if itemID = "" then
    if mhas attrs "Num" ∧ attrs.length = 1 then
      let num := mget attrs "Num"
      let h' :=
        if num = "0" then { h with server := [] }
        else { h with players := aerase h.players num }
      if h'.server.length = 0 ∧ h'.players.length = 0 then (h', false)
      else (h', inMap)
    else (h, inMap)
  else if itemID = "0" then
    ({ h with server := mergeItemAttrs h.server attrs }, inMap)
  else
    let p := match aget h.players itemID with | some p => p | none => []
    ({ h with players := aset h.players itemID (mergeItemAttrs p attrs) }, inMap)

/-- `HostStore.ApplyHostData(from, payload)`; `now` stands for the
`time.Now().UTC()` call inside. -/
def HostStore.ApplyHostData (s : HostStore) (fromId : Nat) (now : Int)
    (payload : String) : HostStore :=
  let items := scanSelfClosingElements payload "Item"
  if items.length = 0 then s
  else
    let (s1, h0) := s.getOrCreateLocked fromId
    let h1 := { h0 with lastUpdate := now }
    let r := items.foldl applyHostItem (h1, true)
    if r.2 then { s1 with hosts := aset s1.hosts fromId r.1 }
    else { s1 with hosts := aerase s1.hosts fromId }

/-- `state.parseHostIpList` (host_store): split the published address list on
commas and whitespace; primary is the first token, secondary is the first
later token different from the primary, defaulting to the first token. -/
def findSecondaryIp (ip0 : String) : List String → String
  | [] => ip0
  | x :: t => if x ≠ "" ∧ x ≠ ip0 then x else findSecondaryIp ip0 t

def parseHostIpList (raw : String) : String × String :=
  let raw := trimString raw
  if raw = "" then ("", "")
  else
    let ips := (fieldsBy
      (fun r => r = ',' ∨ r = ' ' ∨ r = '\t' ∨ r = '\r' ∨ r = '\n')
      raw.toList).map String.mk
    match ips with
    | [] => ("", "")
    | ip0 :: restIps => (ip0, findSecondaryIp ip0 restIps)

/-- `state.hostAdvertisedIPs`: prefer an explicit `IpAddr` field, otherwise
split the `Ip2` field as an address list. -/
def hostAdvertisedIPs (server : List (String × String)) : String × String :=
  let ipAddr := trimString (mget server "IpAddr")
  let raw2 := trimString (mget server "Ip2")
  if raw2 = "" ∧ ipAddr = "" then ("", "")
  else
    let ps := parseHostIpList raw2
    let p := ps.1
    let sec := ps.2
    if ipAddr = "" ∧ p ≠ "" then (p, sec)
    else if ipAddr ≠ "" ∧ raw2 ≠ "" then
      (ipAddr,
        if sec ≠ "" ∧ sec ≠ ipAddr then sec
        else if p ≠ "" ∧ p ≠ ipAddr then p
        else ipAddr)
    else if ipAddr ≠ "" then (ipAddr, ipAddr)
    else (ipAddr, "")

/-- `state.hostBrowseIPs`: the observed remote address, when recorded, is the
primary; a client-advertised address is used as secondary only when it is
non-empty, differs from the primary and is not private; otherwise fall back
entirely to the advertised addresses. -/
def hostBrowseIPs (h : HostSession) : String × String :=
  let adv := hostAdvertisedIPs h.server
  let adv1 := adv.1
  let adv2 := adv.2
  if trimString h.observedRemoteIP ≠ "" then
    let ipAddr := h.observedRemoteIP
    let ip2 :=
      if adv1 ≠ "" ∧ adv1 ≠ ipAddr ∧ ¬ isPrivateIP adv1 then adv1
      else if adv2 ≠ "" ∧ adv2 ≠ ipAddr ∧ ¬ isPrivateIP adv2 then adv2
      else ipAddr
    (ipAddr, ip2)
  else (adv1, adv2)

/-- The visibility test of `VisibleGamesCount` and `GamesRows`: at least one
of game name, map or published address list must be non-empty. -/
def hostVisible (h : HostSession) : Bool :=
  ¬ (mget h.server "GName" = "" ∧ mget h.server "Map" = "" ∧
     mget h.server "Ip2" = "")

/-- `HostStore.VisibleGamesCount()`. -/
def HostStore.VisibleGamesCount (s : HostStore) : Nat :=
  (s.hosts.filter (fun kv => hostVisible kv.2)).length

/-- `state.copyIfNonEmpty`. -/
def copyIfNonEmpty (dst : List (String × String)) (k v : String) :
    List (String × String) :=
  if v = "" then dst else mset dst k v

/-- `state.GameRow`. -/
structure GameRow where
  rid : String
  items : List (String × String)
deriving Repr, DecidableEq

/-- The row-items block of `HostStore.GamesRows` (column values copied from
observed HostData keys plus the browse address pair). -/
def gamesRowItems (rid : String) (h : HostSession) : List (String × String) :=
  let items := mset [] "Rid" rid
  let items := copyIfNonEmpty items "GName" (mget h.server "GName")
  let items := copyIfNonEmpty items "GameV" (mget h.server "GameV")
  let items := copyIfNonEmpty items "Locale" (mget h.server "Locale")
  let bip := hostBrowseIPs h
  let items := if bip.1 ≠ "" then mset (mset items "IpAddr" bip.1) "Ip2" bip.2 else items
  let items := copyIfNonEmpty items "SFlags" (mget h.server "SFlags")
  let items := copyIfNonEmpty items "Flags" (mget h.server "Flags")
  let items := copyIfNonEmpty items "Map" (mget h.server "Map")
  let items := copyIfNonEmpty items "World" (mget h.server "World")
  let items := copyIfNonEmpty items "NumP" (mget h.server "NumP")
  let items := copyIfNonEmpty items "MaxP" (mget h.server "MaxP")
  let items := copyIfNonEmpty items "Difficulty" (mget h.server "Difficulty")
  let items := copyIfNonEmpty items "Time" (mget h.server "Time")
  let items := copyIfNonEmpty items "TimeL" (mget h.server "TimeL")
  items

/-- The row-items block of `HostStore.RowByRid`, duplicated verbatim in the
Go source from the `GamesRows` block. -/
def rowByRidItems (rid : String) (h : HostSession) : List (String × String) :=
  let items := mset [] "Rid" rid
  let items := copyIfNonEmpty items "GName" (mget h.server "GName")
  let items := copyIfNonEmpty items "GameV" (mget h.server "GameV")
  let items := copyIfNonEmpty items "Locale" (mget h.server "Locale")
  let bip := hostBrowseIPs h
  let items := if bip.1 ≠ "" then mset (mset items "IpAddr" bip.1) "Ip2" bip.2 else items
  let items := copyIfNonEmpty items "SFlags" (mget h.server "SFlags")
  let items := copyIfNonEmpty items "Flags" (mget h.server "Flags")
  let items := copyIfNonEmpty items "Map" (mget h.server "Map")
  let items := copyIfNonEmpty items "World" (mget h.server "World")
  let items := copyIfNonEmpty items "NumP" (mget h.server "NumP")
  let items := copyIfNonEmpty items "MaxP" (mget h.server "MaxP")
  let items := copyIfNonEmpty items "Difficulty" (mget h.server "Difficulty")
  let items := copyIfNonEmpty items "Time" (mget h.server "Time")
  let items := copyIfNonEmpty items "TimeL" (mget h.server "TimeL")
  items

/-- Insertion sort on `Nat`, modelling `sort.Slice(keys, keys[i] < keys[j])`:
map keys are distinct, so the sorted permutation is unique and any correct
sort computes it. -/
def insertSortedNat (k : Nat) : List Nat → List Nat
  | [] => [k]
  | x :: t => if k ≤ x then k :: x :: t else x :: insertSortedNat k t

def sortNat (l : List Nat) : List Nat := l.foldr insertSortedNat []

/-- `HostStore.GamesRows(maxRows, headers)`: iterate sessions in ascending
DPNID order, filter by visibility, stop at `maxRows` when positive
(`maxRows <= 0` means no cap; `headers` is unused, as in the source). -/
def HostStore.GamesRows (s : HostStore) (maxRows : Int) (headers : List String) :
    List GameRow :=
  let keys := sortNat (s.hosts.map (fun kv => kv.1))
  keys.foldl
    (fun out k =>
      if 0 < maxRows ∧ maxRows ≤ (out.length : Int) then out
      else
        match aget s.hosts k with
        | none => out
        | some h =>
          if hostVisible h then
            let rid := toString h.rid
            out ++ [{ rid := rid, items := gamesRowItems rid h }]
          else out)
    []

/-- `HostStore.RowByRid(rid, headers)`: first session whose row id renders to
`rid` (map iteration order is immaterial for the claims, which assume the
match is unique). -/
def HostStore.RowByRid (s : HostStore) (rid : String) (headers : List String) :
    Option GameRow :=
  match s.hosts.find? (fun kv => toString kv.2.rid = rid) with
  | some kv => some { rid := rid, items := rowByRidItems rid kv.2 }
  | none => none

end OpenZone

namespace OpenZone

/-- `proto.xmlEscapeAttr`: a `strings.Replacer` with single-character
patterns, i.e. a character-wise map replacing `&`, `"`, `<`, `>`. -/
def escAttrChar (c : Char) : String :=
  if c = '&' then "&amp;"
  else if c = '"' then "&quot;"
  else if c = '<' then "&lt;"
  else if c = '>' then "&gt;"
  else String.singleton c

def xmlEscapeAttr (s : String) : String :=
  String.join (s.toList.map escAttrChar)

/-- `proto.xmlEscapeText` (element text content; `"` is not replaced). -/
def escTextChar (c : Char) : String :=
  if c = '&' then "&amp;"
  else if c = '<' then "&lt;"
  else if c = '>' then "&gt;"
  else String.singleton c

def xmlEscapeText (s : String) : String :=
  String.join (s.toList.map escTextChar)

/-- `proto.headerTokensForView(vid)`. -/
def headerTokensForView (vid : String) : List String :=
  if vid = "501" then ["User", "PTeam", "PChar", "PLev"]
  else
    ["Rid", "GName", "GameV", "Locale", "IpAddr", "Ip2", "SFlags", "Flags",
     "Map", "World", "NumP", "MaxP", "Difficulty", "Time", "TimeL", "InGame"]

/-- An outbound frame (`proto.Outbound`), in structured form: its payload is
`<tag attrs...>children</tag>` (self-closing when `children` is empty), with
`attrs` and each child's attributes listed in the order the handler writes
them into the format string. -/
structure OutFrame where
  tag : String
  attrs : List (String × String)
  children : List (String × List (String × String))
  exp : String
deriving Repr, DecidableEq

/-- `proto.Engine` (its `port` is `EngineConfig.Port`; the two stores are
nilable pointers). -/
structure Engine where
  port : Int
  host : Option HostStore
  players : Option PlayerStore
deriving Repr, DecidableEq

/-- Go attribute read with default: `v := in.Attrs[k]; if v == "" { v = d }`. -/
def attrOr (m : Msg) (k d : String) : String :=
  let v := mget m.attrs k
  if v = "" then d else v

/-- The row-attribute loop of `handleRowPg`: one attribute per header token,
in header order, escaped; the first column falls back to the row id when
empty. -/
def rowPgRowAttrs (headers : List String) (row : GameRow) :
    List (String × String) :=
  headers.enum.map (fun ih =>
    let val := mget row.items ih.2
    (ih.2, xmlEscapeAttr (if ih.1 = 0 ∧ val = "" then row.rid else val)))

/-- The row-attribute loop of `handlePage`, duplicated verbatim in the Go
source from the `handleRowPg` loop. -/
def pageRowAttrs (headers : List String) (row : GameRow) :
    List (String × String) :=
  headers.enum.map (fun ih =>
    let val := mget row.items ih.2
    (ih.2, xmlEscapeAttr (if ih.1 = 0 ∧ val = "" then row.rid else val)))

/-- `Engine.handleRowPg`. -/
def Engine.handleRowPg (e : Engine) (m : Msg) : List OutFrame :=
  let cx := attrOr m "Cx" "0x0"
  let vid := attrOr m "Vid" "0"
  let rid := attrOr m "Rid" "0"
  let num := attrOr m "Num" "0"
  let str := mget m.attrs "Str"
  let headers := headerTokensForView vid
  match e.host with
  | none =>
    [{ tag := "RowPgRes",
       attrs := [("HR", "0x80004005"), ("Cx", cx), ("Vid", vid), ("Rid", rid),
                 ("Num", xmlEscapeAttr num), ("Str", xmlEscapeAttr str),
                 ("Count", "0")],
       children := [], exp := "send-safe-fail" }]
  | some host =>
    match host.RowByRid rid headers with
    | none =>
      [{ tag := "RowPgRes",
         attrs := [("HR", "0x00000000"), ("Cx", cx), ("Vid", vid), ("Rid", rid),
                   ("Num", xmlEscapeAttr num), ("Str", xmlEscapeAttr str),
                   ("Count", "0")],
         children := [], exp := "send-rowpg-miss" }]
    | some row =>
      [{ tag := "RowPgRes",
         attrs := [("HR", "0x00000000"), ("Cx", cx), ("Vid", vid), ("Rid", rid),
                   ("Num", xmlEscapeAttr num), ("Str", xmlEscapeAttr str),
                   ("Count", "1")],
         children := [("Row", rowPgRowAttrs headers row)],
         exp := "send-rowpg-hit" }]

/-- Lowercase hexadecimal digit. -/
def hexDigitChar (n : Nat) : Char :=
  if n < 10 then Char.ofNat (48 + n) else Char.ofNat (87 + n)

/-- Go `fmt.Sprintf("%08x", v)` for a `uint32` value. -/
def hex08 (n : Nat) : String :=
  String.mk ((List.range 8).map (fun i => hexDigitChar (n / 16 ^ (7 - i) % 16)))

/-- Go `uint32(x)` conversion of a signed 64-bit value. -/
def u32 (x : Int) : Nat := (x.emod 4294967296).toNat

/-- `proto.SecondsSince2000UTC` applied to a time given in Unix nanoseconds
(2000-01-01 UTC is Unix second 946684800). -/
def SecondsSince2000UTC (nowUnixNano : Int) : Nat :=
  let baseNano : Int := 946684800000000000
  if nowUnixNano < baseNano then 0
  else ((nowUnixNano - baseNano) / 1000000000).toNat

/-- `Engine.handleConnect`; `nowUnixNano` is `now.UnixNano()`.  `>> 32` on
the signed nanosecond count is an arithmetic shift, i.e. flooring division,
and `uint32(a ^ b)` keeps the xor of the low 32 bits. -/
def Engine.handleConnect (e : Engine) (nowUnixNano : Int) (m : Msg) :
    List OutFrame :=
  let cx := attrOr m "Cx" "0x0"
  let pv := attrOr m "ProtoVer" "3.3"
  let t2000 := SecondsSince2000UTC nowUnixNano
  let siid := u32 nowUnixNano
  let lid := u32 (Int.fdiv nowUnixNano 4294967296)
  let unixSec := Int.fdiv nowUnixNano 1000000000
  let randv := Nat.xor (u32 nowUnixNano) (u32 unixSec)
  [{ tag := "ConnectRes",
     attrs := [("HR", "0x00000000"), ("Cx", cx), ("ProtoVer", pv),
               ("SIId", "0x" ++ hex08 siid), ("LId", "0x" ++ hex08 lid),
               ("ConSId", "0x" ++ hex08 siid), ("ConLId", "0x" ++ hex08 lid),
               ("Time", toString t2000), ("Locale", "0x0409"),
               ("Random", "0x" ++ hex08 randv),
               ("AppGuid", "77E2D9C2-504E-459F-8416-0848130BBE1E")],
     children := [], exp := "send" },
   { tag := "ConInfoRes",
     attrs := [("HR", "0x00000000"), ("Cx", cx), ("IpAddr", "127.0.0.1"),
               ("Port", toString e.port)],
     children := [], exp := "send" },
   { tag := "ConnectEv",
     attrs := [("HR", "0x00000000"), ("Cx", cx), ("Time", toString t2000)],
     children := [], exp := "send" }]

/-- `Engine.handleSetLoc`; `now` stands for the wall clock read inside
`HostStore.SetLoc`. -/
def Engine.handleSetLoc (e : Engine) (fromDPNID : Nat) (m : Msg) (now : Int) :
    Engine × List OutFrame :=
  let host' :=
    match e.host with
    | some h => some (h.SetLoc fromDPNID (mget m.attrs "Location") now)
    | none => none
  let cx := attrOr m "Cx" "0x0"
  let flags := mget m.attrs "Flags"
  let loc := mget m.attrs "Location"
  ({ e with host := host' },
   [{ tag := "SetLocRes",
      attrs := [("HR", "0x00000000"), ("Cx", cx), ("Flags", xmlEscapeAttr flags),
                ("Location", xmlEscapeAttr loc)],
      children := [], exp := "send-host" }])

/-- `Engine.handleHostData`; `now` stands for the wall clock read inside
`HostStore.ApplyHostData`. -/
def Engine.handleHostData (e : Engine) (fromDPNID : Nat) (m : Msg) (now : Int) :
    Engine × List OutFrame :=
  let host' :=
    match e.host with
    | some h => some (h.ApplyHostData fromDPNID now m.raw)
    | none => none
  let cx := attrOr m "Cx" "0x0"
  ({ e with host := host' },
   [{ tag := "HostDataRes", attrs := [("HR", "0x00000000"), ("Cx", cx)],
      children := [], exp := "send-host" }])

/-- `Engine.handleHdrRow`: the column tokens as the attributes of a single
`Hdrs` child, indexed `H0..H(N-1)`, with no count attribute. -/
def Engine.handleHdrRow (m : Msg) : List OutFrame :=
  let cx := attrOr m "Cx" "0x0"
  let vid := attrOr m "Vid" "0"
  let headers := headerTokensForView vid
  [{ tag := "HdrRowRes",
     attrs := [("HR", "0x00000000"), ("Cx", cx), ("Vid", vid)],
     children :=
       [("Hdrs", headers.enum.map (fun ih => ("H" ++ toString ih.1, xmlEscapeAttr ih.2)))],
     exp := "send" }]

/-- The envelope attribute list shared by the empty and the populated
`PageRes`, with the row count spliced in. -/
def pageResEnvelope (cx vid pageNo num str : String) (count : Nat) :
    List (String × String) :=
  [("HR", "0x00000000"), ("Cx", cx), ("Vid", vid), ("ViewId", vid),
   ("PageNo", pageNo), ("PageNumber", pageNo), ("VType", "0"), ("ViewType", "0"),
   ("VIdx", "0"), ("ViewIndex", "0"), ("VTotal", "0"), ("ViewTotal", "0"),
   ("Count", toString count), ("Num", xmlEscapeAttr num), ("Str", xmlEscapeAttr str)]

/-- `Engine.handlePage`: rows come from the Host Store only for view id
`"101"`; zero rows yield the self-closing envelope, otherwise one `Row`
child per store row with exactly the header tokens as attributes. -/
def Engine.handlePage (e : Engine) (m : Msg) : List OutFrame :=
  let cx := attrOr m "Cx" "0x0"
  let vid := attrOr m "Vid" "0"
  let pageNo := attrOr m "PageNo" "0"
  let num := attrOr m "Num" "0"
  let str := mget m.attrs "Str"
  let headers := headerTokensForView vid
  let rows :=
    match e.host with
    | some h => if vid = "101" then h.GamesRows 0 headers else []
    | none => []
  if rows.length = 0 then
    [{ tag := "PageRes", attrs := pageResEnvelope cx vid pageNo num str 0,
       children := [], exp := "send" }]
  else
    [{ tag := "PageRes",
       attrs := pageResEnvelope cx vid pageNo num str rows.length,
       children := rows.map (fun r => ("Row", pageRowAttrs headers r)),
       exp := "send-page-rows" }]

/-- The unsafe-tag character set of `handleFallback`
(`strings.ContainsAny(in.Tag, "<>\"' /\\")`). -/
def fallbackUnsafeChar (c : Char) : Bool :=
  c = '<' ∨ c = '>' ∨ c = '"' ∨ c = '\'' ∨ c = ' ' ∨ c = '/' ∨ c = '\\'

/-- The string `k="v"` that `handleFallback` formats for one echoed
attribute (note: no escaping). -/
def renderAttrKV (kv : String × String) : String :=
  kv.1 ++ "=\"" ++ kv.2 ++ "\""

/-- Insertion sort by the rendered `k="v"` strings, modelling
`sort.Strings(attrs)` in `handleFallback`. -/
def insertSortedKV (kv : String × String) :
    List (String × String) → List (String × String)
  | [] => [kv]
  | x :: t =>
    if renderAttrKV kv ≤ renderAttrKV x then kv :: x :: t
    else x :: insertSortedKV kv t

def sortAttrsKV (l : List (String × String)) : List (String × String) :=
  l.foldr insertSortedKV []

/-- `Engine.handleFallback`: drop unsafe tags, otherwise echo all received
attributes verbatim (sorted for determinism) behind a success status, under
tag `<Tag>Res`. -/
def Engine.handleFallback (m : Msg) : List OutFrame :=
  if m.tag = "" ∨ m.tag.toList.any fallbackUnsafeChar then []
  else
    [{ tag := m.tag ++ "Res",
       attrs := ("HR", "0x00000000") :: sortAttrsKV m.attrs,
       children := [], exp := "send-fallback" }]

/-- `Engine.Handle`: dispatch on the inbound tag.  `now` serves both as
`now.UnixNano()` for the connect bundle and as the wall-clock instant the
store operations would read. -/
def Engine.Handle (e : Engine) (now : Int) (fromDPNID : Nat) (m : Msg) :
    Engine × List OutFrame :=
  if m.tag = "Connect" then (e, e.handleConnect now m)
  else if m.tag = "HdrRow" then (e, Engine.handleHdrRow m)
  else if m.tag = "Page" then (e, e.handlePage m)
  else if m.tag = "RowPg" then (e, e.handleRowPg m)
  else if m.tag = "HostData" then e.handleHostData fromDPNID m now
  else if m.tag = "SetLoc" then e.handleSetLoc fromDPNID m now
  else (e, Engine.handleFallback m)

end OpenZone

namespace OpenZone

/-- DirectPlay send flags (dp8/engine.go, from dplay8.h). -/
def dpnSendSync : Nat := 0x80000000

def dpnSendGuaranteed : Nat := 0x0008

def dpnSendSyncGuaranteed : Nat := dpnSendSync ||| dpnSendGuaranteed

/-- The flag assignment in `Engine.handleEvent`'s outbound loop: start from
`dpnSendGuaranteed` and upgrade the three connect-bundle tags to
`dpnSendSyncGuaranteed`. -/
def sendFlagsForTag (tag : String) : Nat :=
  if tag = "ConnectRes" ∨ tag = "ConInfoRes" ∨ tag = "ConnectEv" then
    dpnSendSyncGuaranteed
  else dpnSendGuaranteed

/-- The per-frame pairing of outbound frames with their delivery flags, as
enqueued to the sender task. -/
def enqueueFlags (outs : List OutFrame) : List (OutFrame × Nat) :=
  outs.map (fun o => (o, sendFlagsForTag o.tag))

/-- The app-protocol part of `dp8.Engine.handleEvent` for a received payload:
a payload is app-protocol iff it starts with `<`; messages from evicted
players are dropped before `proto.Parse` runs, unparseable payloads get no
response, and otherwise the proto engine handles the message.  The player
registry is threaded through unchanged: the receive path never writes it. -/
def handleReceiveEvent (players : Option PlayerStore) (e : Engine) (dpnid : Nat)
    (payload : String) (now : Int) :
    Option PlayerStore × Engine × List OutFrame :=
  if payload.toList.head? = some '<' then
    if (match players with | some ps => ps.IsEvicted dpnid | none => false) then
      (players, e, [])
    else
      match Parse payload with
      | none => (players, e, [])
      | some m =>
        let r := e.Handle now dpnid m
        (players, r.1, r.2)
  else (players, e, [])

end OpenZone

namespace OpenZone

/-- The address-list policy exactly as the specification words it, for the
refinement comparison with `parseHostIpList`: "parsed as a whitespace/comma-
separated list whose first token is primary and whose first distinct
subsequent token is secondary, with a single-token list duplicating as both
primary and secondary". -/
def specIpListPolicy (raw : String) : String × String :=
  match (fieldsBy
      (fun r => r = ',' ∨ r = ' ' ∨ r = '\t' ∨ r = '\r' ∨ r = '\n')
      (trimString raw).toList).map String.mk with
  | [] => ("", "")
  | t0 :: rest => (t0, ((rest.find? (fun t => t ≠ t0)).getD t0))

end OpenZone

namespace OpenZone

theorem splitAtSub_post_lt (pat : List Char) (hp : pat ≠ []) :
    ∀ (l pre post : List Char), splitAtSub pat l = some (pre, post) →
      post.length < l.length := by
  intro l
  induction l with
  | nil =>
    intro pre post h
    have hnp : pat.isPrefixOf ([] : List Char) = false := by
      cases pat with
      | nil => exact absurd rfl hp
      | cons a t => rfl
    simp [splitAtSub, hnp] at h
  | cons c t ih =>
    intro pre post h
    by_cases hpre : pat.isPrefixOf (c :: t)
    · simp [splitAtSub, hpre] at h
      have hlen : post.length = (c :: t).length - pat.length := by
        rw [← h.2, List.length_drop]
      have hpat : 0 < pat.length := by
        cases pat with
        | nil => exact absurd rfl hp
        | cons a s => simp
      simp only [hlen, List.length_cons]
      omega
    · simp only [splitAtSub, hpre, if_false] at h
      cases hrec : splitAtSub pat t with
      | none => simp [hrec] at h
      | some pr =>
        obtain ⟨pre', post'⟩ := pr
        simp [hrec] at h
        have := ih pre' post' hrec
        simp only [List.length_cons]
        rw [← h.2]
        omega

theorem length_dropWhile_le' (p : Char → Bool) (l : List Char) :
    (l.dropWhile p).length ≤ l.length := by
  induction l with
  | nil => simp [List.dropWhile]
  | cons c t ih =>
    simp only [List.dropWhile]
    cases p c <;> simp <;> omega

theorem length_trimChars_le (l : List Char) : (trimChars l).length ≤ l.length := by
  have h1 : (trimLeftChars l).length ≤ l.length := length_dropWhile_le' _ _
  have h2 : (trimRightChars (trimLeftChars l)).length ≤ (trimLeftChars l).length := by
    simp only [trimRightChars, List.length_reverse]
    have := length_dropWhile_le' isSpaceGo (trimLeftChars l).reverse
    simpa using this
  exact le_trans h2 h1

theorem attrScanLoop_fuel_irrel :
    ∀ (f1 f2 : Nat) (attrs : List (String × String)) (rest : List Char),
      rest.length < f1 → rest.length < f2 →
      attrScanLoop f1 attrs rest = attrScanLoop f2 attrs rest := by
  intro f1
  induction f1 with
  | zero => intro f2 attrs rest h1; omega
  | succ n ih =>
    intro f2 attrs rest h1 h2
    cases f2 with
    | zero => omega
    | succ m =>
      simp only [attrScanLoop]
      cases hs : splitAtSub ['=', '"'] rest with
      | none => rfl
      | some pr =>
        obtain ⟨pre, post⟩ := pr
        simp only
        cases hd : post.dropWhile (fun c => decide (c ≠ '"')) with
        | nil => rfl
        | cons c tail =>
          have hpost := splitAtSub_post_lt ['=', '"'] (by simp) rest pre post hs
          have hdl : (post.dropWhile (fun c => decide (c ≠ '"'))).length ≤ post.length :=
            length_dropWhile_le' _ _
          rw [hd] at hdl
          simp only [List.length_cons] at hdl
          have htr : (trimChars tail).length ≤ tail.length := length_trimChars_le _
          exact ih m _ (trimChars tail) (by omega) (by omega)

theorem scanItems_fuel_irrel :
    ∀ (f1 f2 : Nat) (name l : List Char),
      l.length < f1 → l.length < f2 →
      scanItems f1 name l = scanItems f2 name l := by
  intro f1
  induction f1 with
  | zero => intro f2 name l h1; omega
  | succ n ih =>
    intro f2 name l h1 h2
    cases f2 with
    | zero => omega
    | succ m =>
      simp only [scanItems]
      cases hs : splitAtSub ('<' :: name) l with
      | none => rfl
      | some pr =>
        obtain ⟨pre, after⟩ := pr
        simp only
        cases hd : after.dropWhile (fun c => decide (c ≠ '>')) with
        | nil => rfl
        | cons c restAfter =>
          have hpost := splitAtSub_post_lt ('<' :: name) (by simp) l pre after hs
          have hdl : (after.dropWhile (fun c => decide (c ≠ '>'))).length ≤ after.length :=
            length_dropWhile_le' _ _
          rw [hd] at hdl
          simp only [List.length_cons] at hdl
          have hrec := ih m name restAfter (by omega) (by omega)
          simp only [hrec]

end OpenZone

namespace OpenZone

theorem aget_cons {β : Type} (a : Nat) (b : β) (t : List (Nat × β)) (k : Nat) :
    aget ((a, b) :: t) k = if a = k then some b else aget t k := by
  by_cases h : a = k <;> simp [aget, List.find?, h]

theorem aerase_cons {β : Type} (a : Nat) (b : β) (t : List (Nat × β)) (k : Nat) :
    aerase ((a, b) :: t) k =
      if a = k then aerase t k else (a, b) :: aerase t k := by
  by_cases h : a = k <;> simp [aerase, h]

theorem aget_aerase_self {β : Type} (m : List (Nat × β)) (k : Nat) :
    aget (aerase m k) k = none := by
  induction m with
  | nil => rfl
  | cons kv t ih =>
    obtain ⟨a, b⟩ := kv
    rw [aerase_cons]
    by_cases h : a = k
    · simpa [h] using ih
    · rw [if_neg h, aget_cons, if_neg h]
      exact ih

theorem aget_aerase_ne {β : Type} (m : List (Nat × β)) (k k0 : Nat)
    (h : k ≠ k0) : aget (aerase m k0) k = aget m k := by
  induction m with
  | nil => rfl
  | cons kv t ih =>
    obtain ⟨a, b⟩ := kv
    rw [aerase_cons, aget_cons]
    by_cases h1 : a = k0
    · have h2 : a ≠ k := by rw [h1]; exact fun he => h he.symm
      rw [if_pos h1, if_neg h2]
      exact ih
    · rw [if_neg h1, aget_cons]
      by_cases h2 : a = k
      · rw [if_pos h2, if_pos h2]
      · rw [if_neg h2, if_neg h2]
        exact ih

theorem mem_aerase {β : Type} (m : List (Nat × β)) (k : Nat) (kv : Nat × β) :
    kv ∈ aerase m k ↔ kv ∈ m ∧ kv.1 ≠ k := by
  simp [aerase, List.mem_filter]

theorem aget_map_overwrite_ne {β : Type} (m : List (Nat × β)) (k k0 : Nat)
    (v : β) (h : k ≠ k0) :
    aget (m.map (fun kv => if kv.1 = k0 then (k0, v) else kv)) k = aget m k := by
  induction m with
  | nil => rfl
  | cons kv t ih =>
    obtain ⟨a, b⟩ := kv
    by_cases h1 : a = k0
    · subst h1
      have hk0 : a ≠ k := h.symm
      simp [aget_cons, hk0, ih]
    · by_cases h2 : a = k
      · simp [aget_cons, h1, h2, h]
      · simp [aget_cons, h1, h2, ih]

theorem aget_append_single_ne {β : Type} (m : List (Nat × β)) (k k0 : Nat)
    (v : β) (h : k ≠ k0) : aget (m ++ [(k0, v)]) k = aget m k := by
  induction m with
  | nil =>
    have hk0 : k0 ≠ k := fun he => h he.symm
    simp only [List.nil_append]
    rw [aget_cons, if_neg hk0]
  | cons kv t ih =>
    obtain ⟨a, b⟩ := kv
    simp only [List.cons_append]
    rw [aget_cons, aget_cons]
    by_cases h2 : a = k
    · rw [if_pos h2, if_pos h2]
    · rw [if_neg h2, if_neg h2]
      exact ih

theorem aget_aset_ne {β : Type} (m : List (Nat × β)) (k k0 : Nat) (v : β)
    (h : k ≠ k0) : aget (aset m k0 v) k = aget m k := by
  unfold aset
  by_cases hf : (m.find? (fun kv => kv.1 = k0)).isSome
  · simpa [hf] using aget_map_overwrite_ne m k k0 v h
  · simpa [hf] using aget_append_single_ne m k k0 v h

end OpenZone

namespace OpenZone

theorem pageRowAttrs_names (headers : List String) (row : GameRow) :
    (pageRowAttrs headers row).map Prod.fst = headers := by
  simp only [pageRowAttrs, List.map_map]
  have : (Prod.fst ∘ fun ih : Nat × String =>
      (ih.2, xmlEscapeAttr (if ih.1 = 0 ∧ mget row.items ih.2 = "" then row.rid
        else mget row.items ih.2))) = Prod.snd := by
    funext ih
    rfl
  rw [this, List.enum_map_snd]

theorem pageRowAttrs_length (headers : List String) (row : GameRow) :
    (pageRowAttrs headers row).length = headers.length := by
  simp [pageRowAttrs, List.enum_length]

theorem rowPgRowAttrs_eq_pageRowAttrs : rowPgRowAttrs = pageRowAttrs := rfl

theorem mem_insertSortedKV (kv x : String × String) (l : List (String × String)) :
    x ∈ insertSortedKV kv l ↔ x = kv ∨ x ∈ l := by
  induction l with
  | nil => simp [insertSortedKV]
  | cons y t ih =>
    by_cases h : renderAttrKV kv ≤ renderAttrKV y
    · simp [insertSortedKV, h]
    · simp only [insertSortedKV, if_neg h, List.mem_cons, ih]
      tauto

theorem mem_sortAttrsKV (l : List (String × String)) (x : String × String) :
    x ∈ sortAttrsKV l ↔ x ∈ l := by
  induction l with
  | nil => simp [sortAttrsKV]
  | cons y t ih =>
    show x ∈ insertSortedKV y (sortAttrsKV t) ↔ x ∈ y :: t
    rw [mem_insertSortedKV, ih, List.mem_cons]

theorem fieldsByAux_ne_nil (p : Char → Bool) :
    ∀ (l acc : List Char) (f : List Char), f ∈ fieldsByAux p l acc → f ≠ [] := by
  intro l
  induction l with
  | nil =>
    intro acc f hf
    by_cases h : acc = []
    · simp [fieldsByAux, h] at hf
    · simp only [fieldsByAux, if_neg h, List.mem_singleton] at hf
      subst hf
      simpa using h
  | cons c t ih =>
    intro acc f hf
    by_cases hp : p c
    · by_cases h : acc = []
      · simp only [fieldsByAux, hp, if_true, if_pos h] at hf
        exact ih [] f hf
      · simp only [fieldsByAux, hp, if_true, if_neg h, List.mem_cons] at hf
        cases hf with
        | inl he =>
          subst he
          simpa using h
        | inr hm => exact ih [] f hm
    · simp only [fieldsByAux, hp, if_false] at hf
      exact ih (c :: acc) f hf

theorem findSecondaryIp_eq_find (ip0 : String) (rest : List String)
    (hne : ∀ x ∈ rest, x ≠ "") :
    findSecondaryIp ip0 rest = (rest.find? (fun t => t ≠ ip0)).getD ip0 := by
  induction rest with
  | nil => rfl
  | cons x t ih =>
    have hx : x ≠ "" := hne x (List.mem_cons_self x t)
    by_cases h : x = ip0
    · simp [findSecondaryIp, List.find?, h, ih (fun y hy => hne y (List.mem_cons_of_mem x hy))]
    · simp [findSecondaryIp, List.find?, h, hx]

theorem parseHostIpList_eq_spec (raw : String) :
    parseHostIpList raw = specIpListPolicy raw := by
  unfold parseHostIpList specIpListPolicy
  by_cases h : trimString raw = ""
  · rw [if_pos h, h]
    rfl
  · rw [if_neg h]
    cases hfields : (fieldsBy
        (fun r => r = ',' ∨ r = ' ' ∨ r = '\t' ∨ r = '\r' ∨ r = '\n')
        (trimString raw).toList).map String.mk with
    | nil => simp [hfields]
    | cons t0 rest =>
      simp only [hfields]
      have hne : ∀ x ∈ rest, x ≠ "" := by
        intro x hx
        have hx2 : x ∈ (fieldsBy
            (fun r => r = ',' ∨ r = ' ' ∨ r = '\t' ∨ r = '\r' ∨ r = '\n')
            (trimString raw).toList).map String.mk := by
          rw [hfields]
          exact List.mem_cons_of_mem t0 hx
        obtain ⟨f, hf, hfx⟩ := List.mem_map.mp hx2
        have := fieldsByAux_ne_nil _ _ [] f hf
        intro he
        apply this
        exact congrArg String.data (hfx.trans he)
      rw [findSecondaryIp_eq_find t0 rest hne]

end OpenZone

namespace OpenZone

/-- C1: for every page-request, the single `PageRes` frame reports `Count`
equal to its number of `Row` children, every `Row` child carries exactly the
header-schema attribute names in schema order (16 columns for the browse
view `"101"`), and an unrecognized view id (or an empty store) yields the
zero-row success response with the same envelope attribute names — never an
error status. -/
theorem pageResponse_count_matches_rows (e : Engine) (m : Msg) :
    ∃ f : OutFrame, e.handlePage m = [f] ∧
      f.tag = "PageRes" ∧
      mget f.attrs "HR" = "0x00000000" ∧
      mget f.attrs "Count" = toString f.children.length ∧
      (∀ c ∈ f.children, c.1 = "Row" ∧
        c.2.map Prod.fst = headerTokensForView (attrOr m "Vid" "0") ∧
        c.2.length = (headerTokensForView (attrOr m "Vid" "0")).length) ∧
      (headerTokensForView "101").length = 16 ∧
      (attrOr m "Vid" "0" ≠ "101" → f.children = [] ∧ mget f.attrs "Count" = "0") ∧
      (f.children = [] → mget f.attrs "Count" = "0") ∧
      f.attrs.map Prod.fst =
        ["HR", "Cx", "Vid", "ViewId", "PageNo", "PageNumber", "VType",
         "ViewType", "VIdx", "ViewIndex", "VTotal", "ViewTotal", "Count",
         "Num", "Str"] := by
  have hdef : e.handlePage m =
      (if (match e.host with
            | some h =>
              if attrOr m "Vid" "0" = "101" then
                h.GamesRows 0 (headerTokensForView (attrOr m "Vid" "0"))
              else []
            | none => []).length = 0 then
        [{ tag := "PageRes",
           attrs := pageResEnvelope (attrOr m "Cx" "0x0") (attrOr m "Vid" "0")
             (attrOr m "PageNo" "0") (attrOr m "Num" "0") (mget m.attrs "Str") 0,
           children := [], exp := "send" }]
      else
        [{ tag := "PageRes",
           attrs := pageResEnvelope (attrOr m "Cx" "0x0") (attrOr m "Vid" "0")
             (attrOr m "PageNo" "0") (attrOr m "Num" "0") (mget m.attrs "Str")
             (match e.host with
              | some h =>
                if attrOr m "Vid" "0" = "101" then
                  h.GamesRows 0 (headerTokensForView (attrOr m "Vid" "0"))
                else []
              | none => []).length,
           children := (match e.host with
              | some h =>
                if attrOr m "Vid" "0" = "101" then
                  h.GamesRows 0 (headerTokensForView (attrOr m "Vid" "0"))
                else []
              | none => []).map
             (fun r => ("Row", pageRowAttrs (headerTokensForView (attrOr m "Vid" "0")) r)),
           exp := "send-page-rows" }]) := rfl
  set rows := (match e.host with
      | some h =>
        if attrOr m "Vid" "0" = "101" then
          h.GamesRows 0 (headerTokensForView (attrOr m "Vid" "0"))
        else []
      | none => []) with hrowsdef
  have hrows_ne : attrOr m "Vid" "0" ≠ "101" → rows = [] := by
    intro hv
    rw [hrowsdef]
    cases e.host with
    | none => rfl
    | some h => simp [hv]
  by_cases hr : rows.length = 0
  · refine ⟨_, by rw [hdef, if_pos hr], rfl, ?_, ?_, ?_, by decide, ?_, ?_, ?_⟩
    · simp [pageResEnvelope, mget, List.find?]
    · simp [pageResEnvelope, mget, List.find?]
    · intro c hc
      simp at hc
    · intro hv
      refine ⟨rfl, ?_⟩
      simp [pageResEnvelope, mget, List.find?]
      decide
    · intro hv
      simp [pageResEnvelope, mget, List.find?]
      decide
    · simp [pageResEnvelope]
  · refine ⟨_, by rw [hdef, if_neg hr], rfl, ?_, ?_, ?_, by decide, ?_, ?_, ?_⟩
    · simp [pageResEnvelope, mget, List.find?]
    · simp only [pageResEnvelope, mget, List.find?]
      simp [List.length_map]
    · intro c hc
      simp only [List.mem_map] at hc
      obtain ⟨r, hrmem, hcr⟩ := hc
      refine ⟨by rw [← hcr], ?_, ?_⟩
      · rw [← hcr]
        exact pageRowAttrs_names _ _
      · rw [← hcr]
        exact pageRowAttrs_length _ _
    · intro hv
      exact absurd (by rw [hrows_ne hv]; rfl) hr
    · intro hch
      have : rows = [] := by
        have := List.map_eq_nil.mp hch
        exact this
      exact absurd (by rw [this]; rfl) hr
    · simp [pageResEnvelope]

/-- Witness for C1 at a concrete engine and page request. -/
theorem pageResponse_count_matches_rows_witness :
    ∃ f : OutFrame,
      Engine.handlePage ⟨2300, some NewHostStore, none⟩
        ⟨"Page", [("Cx", "0x2"), ("Vid", "101")], ""⟩ = [f] ∧
      f.tag = "PageRes" ∧
      mget f.attrs "HR" = "0x00000000" ∧
      mget f.attrs "Count" = toString f.children.length ∧
      (∀ c ∈ f.children, c.1 = "Row" ∧
        c.2.map Prod.fst = headerTokensForView
          (attrOr ⟨"Page", [("Cx", "0x2"), ("Vid", "101")], ""⟩ "Vid" "0") ∧
        c.2.length = (headerTokensForView
          (attrOr ⟨"Page", [("Cx", "0x2"), ("Vid", "101")], ""⟩ "Vid" "0")).length) ∧
      (headerTokensForView "101").length = 16 ∧
      (attrOr ⟨"Page", [("Cx", "0x2"), ("Vid", "101")], ""⟩ "Vid" "0" ≠ "101" →
        f.children = [] ∧ mget f.attrs "Count" = "0") ∧
      (f.children = [] → mget f.attrs "Count" = "0") ∧
      f.attrs.map Prod.fst =
        ["HR", "Cx", "Vid", "ViewId", "PageNo", "PageNumber", "VType",
         "ViewType", "VIdx", "ViewIndex", "VTotal", "ViewTotal", "Count",
         "Num", "Str"] :=
  pageResponse_count_matches_rows ⟨2300, some NewHostStore, none⟩
    ⟨"Page", [("Cx", "0x2"), ("Vid", "101")], ""⟩

end OpenZone

namespace OpenZone

/-- C2: every connect-request yields exactly the three frames ConnectRes,
ConInfoRes, ConnectEv in this order, with the documented defaults for the
correlation id and protocol version; the info frame carries the engine's
configured port and the loopback address `127.0.0.1` (the engine
configuration has no advertise-address setting, so the loopback default is
what is always sent). -/
theorem connectBundle_three_frames (e : Engine) (nowNano : Int) (m : Msg) :
    ∃ f1 f2 f3 : OutFrame, e.handleConnect nowNano m = [f1, f2, f3] ∧
      f1.tag = "ConnectRes" ∧ f2.tag = "ConInfoRes" ∧ f3.tag = "ConnectEv" ∧
      mget f2.attrs "IpAddr" = "127.0.0.1" ∧
      mget f2.attrs "Port" = toString e.port ∧
      mget f2.attrs "Cx" = attrOr m "Cx" "0x0" ∧
      mget f1.attrs "Cx" = attrOr m "Cx" "0x0" ∧
      mget f1.attrs "ProtoVer" = attrOr m "ProtoVer" "3.3" ∧
      mget f1.attrs "HR" = "0x00000000" ∧
      (mget m.attrs "Cx" = "" → mget f1.attrs "Cx" = "0x0") ∧
      (mget m.attrs "ProtoVer" = "" → mget f1.attrs "ProtoVer" = "3.3") := by
  refine ⟨_, _, _, rfl, rfl, rfl, rfl, ?_, ?_, ?_, ?_, ?_, ?_, ?_, ?_⟩
  · simp [mget, List.find?]
  · simp [mget, List.find?]
  · simp [mget, List.find?]
  · simp [mget, List.find?]
  · simp [mget, List.find?]
  · simp [mget, List.find?]
  · intro h
    have ha : attrOr m "Cx" "0x0" = "0x0" := by simp [attrOr, h]
    simp [mget, List.find?, ha]
  · intro h
    have ha : attrOr m "ProtoVer" "3.3" = "3.3" := by simp [attrOr, h]
    simp [mget, List.find?, ha]

/-- Witness for C2: the spec's concrete scenario, correlation `"0x123"` and
protocol version `"3.3"` against a port-2300 engine. -/
theorem connectBundle_three_frames_witness :
    ∃ f1 f2 f3 : OutFrame,
      Engine.handleConnect ⟨2300, some NewHostStore, none⟩ 0
          ⟨"Connect", [("Cx", "0x123"), ("ProtoVer", "3.3")], ""⟩ = [f1, f2, f3] ∧
      f1.tag = "ConnectRes" ∧ f2.tag = "ConInfoRes" ∧ f3.tag = "ConnectEv" ∧
      mget f2.attrs "IpAddr" = "127.0.0.1" ∧
      mget f2.attrs "Port" =
        toString (Engine.port ⟨2300, some NewHostStore, none⟩) ∧
      mget f2.attrs "Cx" =
        attrOr ⟨"Connect", [("Cx", "0x123"), ("ProtoVer", "3.3")], ""⟩ "Cx" "0x0" ∧
      mget f1.attrs "Cx" =
        attrOr ⟨"Connect", [("Cx", "0x123"), ("ProtoVer", "3.3")], ""⟩ "Cx" "0x0" ∧
      mget f1.attrs "ProtoVer" =
        attrOr ⟨"Connect", [("Cx", "0x123"), ("ProtoVer", "3.3")], ""⟩ "ProtoVer" "3.3" ∧
      mget f1.attrs "HR" = "0x00000000" ∧
      (mget (Msg.attrs ⟨"Connect", [("Cx", "0x123"), ("ProtoVer", "3.3")], ""⟩) "Cx" = "" →
        mget f1.attrs "Cx" = "0x0") ∧
      (mget (Msg.attrs ⟨"Connect", [("Cx", "0x123"), ("ProtoVer", "3.3")], ""⟩) "ProtoVer" = "" →
        mget f1.attrs "ProtoVer" = "3.3") :=
  connectBundle_three_frames ⟨2300, some NewHostStore, none⟩ 0
    ⟨"Connect", [("Cx", "0x123"), ("ProtoVer", "3.3")], ""⟩

end OpenZone

namespace OpenZone

/-- C9: every outbound frame is enqueued with the sync+guaranteed flag
exactly when its tag is one of the three connect-bundle tags, with the plain
guaranteed flag otherwise; every frame's flags include the guaranteed bit,
so no frame is sent best-effort. -/
theorem deliveryFlags_policy (outs : List OutFrame) (o : OutFrame) (fl : Nat)
    (hmem : (o, fl) ∈ enqueueFlags outs) :
    (fl = dpnSendSyncGuaranteed ↔
      (o.tag = "ConnectRes" ∨ o.tag = "ConInfoRes" ∨ o.tag = "ConnectEv")) ∧
    (¬ (o.tag = "ConnectRes" ∨ o.tag = "ConInfoRes" ∨ o.tag = "ConnectEv") →
      fl = dpnSendGuaranteed) ∧
    fl &&& dpnSendGuaranteed = dpnSendGuaranteed := by
  simp only [enqueueFlags, List.mem_map] at hmem
  obtain ⟨o', _, heq⟩ := hmem
  simp only [Prod.mk.injEq] at heq
  obtain ⟨ho, hf⟩ := heq
  rw [← hf, ho]
  by_cases hc : o.tag = "ConnectRes" ∨ o.tag = "ConInfoRes" ∨ o.tag = "ConnectEv"
  · unfold sendFlagsForTag
    rw [if_pos hc]
    refine ⟨⟨fun _ => hc, fun _ => rfl⟩, fun hn => absurd hc hn, by decide⟩
  · unfold sendFlagsForTag
    rw [if_neg hc]
    refine ⟨⟨fun he => absurd he (by decide), fun hcc => absurd hcc hc⟩,
      fun _ => rfl, by decide⟩

/-- Witness for C9 at a concrete enqueued frame list. -/
theorem deliveryFlags_policy_witness :
    ((⟨"ConInfoRes", [], [], "send"⟩ : OutFrame), dpnSendSyncGuaranteed) ∈
        enqueueFlags [⟨"ConInfoRes", [], [], "send"⟩, ⟨"PageRes", [], [], "send"⟩] ∧
      (dpnSendSyncGuaranteed = dpnSendSyncGuaranteed ↔
        ((OutFrame.tag ⟨"ConInfoRes", [], [], "send"⟩) = "ConnectRes" ∨
         (OutFrame.tag ⟨"ConInfoRes", [], [], "send"⟩) = "ConInfoRes" ∨
         (OutFrame.tag ⟨"ConInfoRes", [], [], "send"⟩) = "ConnectEv")) := by
  have hm : ((⟨"ConInfoRes", [], [], "send"⟩ : OutFrame), dpnSendSyncGuaranteed) ∈
      enqueueFlags [⟨"ConInfoRes", [], [], "send"⟩, ⟨"PageRes", [], [], "send"⟩] := by
    decide
  exact ⟨hm, (deliveryFlags_policy _ _ _ hm).1⟩

end OpenZone

namespace OpenZone

set_option maxRecDepth 40000

/-- C6 counterexample: the generic fallback handler echoes a received
attribute value containing `&` verbatim, not in its escaped form, so it is
not the case that every attribute value written into an outbound frame is
escaped. -/
theorem fallback_echo_unescaped_counterexample :
    Engine.handleFallback ⟨"Ping", [("A", "x&y")], "<Ping A=\"x&y\" />"⟩ =
      [{ tag := "PingRes", attrs := [("HR", "0x00000000"), ("A", "x&y")],
         children := [], exp := "send-fallback" }] ∧
    xmlEscapeAttr "x&y" = "x&amp;y" ∧ ("x&y" : String) ≠ "x&amp;y" := by
  decide

/-- C6 amended: `xmlEscapeAttr` replaces exactly `&`, `"`, `<`, `>` and
changes nothing else, and the engine applies it to row values, header tokens
and selected echoed attributes — but the generic fallback handler echoes the
received attribute values verbatim, without escaping. -/
theorem attribute_escaping_policy :
    (∀ c : Char, c ≠ '&' → c ≠ '"' → c ≠ '<' → c ≠ '>' →
      escAttrChar c = String.singleton c) ∧
    escAttrChar '&' = "&amp;" ∧ escAttrChar '"' = "&quot;" ∧
    escAttrChar '<' = "&lt;" ∧ escAttrChar '>' = "&gt;" ∧
    (∀ m : Msg, m.tag ≠ "" → ¬ (m.tag.toList.any fallbackUnsafeChar = true) →
      Engine.handleFallback m =
        [{ tag := m.tag ++ "Res",
           attrs := ("HR", "0x00000000") :: sortAttrsKV m.attrs,
           children := [], exp := "send-fallback" }]) ∧
    (∀ (m : Msg) (kv : String × String), kv ∈ sortAttrsKV m.attrs → kv ∈ m.attrs) ∧
    (∀ (headers : List String) (row : GameRow) (kv : String × String),
      kv ∈ pageRowAttrs headers row → ∃ u, kv.2 = xmlEscapeAttr u) := by
  refine ⟨?_, rfl, rfl, rfl, rfl, ?_, ?_, ?_⟩
  · intro c h1 h2 h3 h4
    simp [escAttrChar, h1, h2, h3, h4]
  · intro m h1 h2
    simp only [Engine.handleFallback]
    rw [if_neg]
    intro hc
    cases hc with
    | inl he => exact h1 he
    | inr ha => exact h2 ha
  · intro m kv hkv
    exact (mem_sortAttrsKV m.attrs kv).mp hkv
  · intro headers row kv hkv
    simp only [pageRowAttrs, List.mem_map] at hkv
    obtain ⟨ih, _, hkveq⟩ := hkv
    exact ⟨_, by rw [← hkveq]⟩

/-- Witness for the amended C6: a concrete fallback request is echoed with
its attribute values unchanged. -/
theorem attribute_escaping_policy_witness :
    ("Foo" : String) ≠ "" ∧
    ¬ (("Foo" : String).toList.any fallbackUnsafeChar = true) ∧
    Engine.handleFallback ⟨"Foo", [("B", "1<2")], ""⟩ =
      [{ tag := "Foo" ++ "Res",
         attrs := ("HR", "0x00000000") :: sortAttrsKV [("B", "1<2")],
         children := [], exp := "send-fallback" }] :=
  ⟨by decide, by decide,
   attribute_escaping_policy.2.2.2.2.2.1 ⟨"Foo", [("B", "1<2")], ""⟩
     (by decide) (by decide)⟩

end OpenZone

namespace OpenZone

/-- C5: a details-request whose row id misses the Host Store gets a single
success frame (`HR="0x00000000"`) with `Count="0"` and no row child — never
an error status and never silence; on a hit, the row is encoded with the
same row-attribute encoding as the page response (`rowPgRowAttrs` and
`pageRowAttrs` are the same function). -/
theorem rowPg_details_contract (e : Engine) (st : HostStore) (m : Msg)
    (hhost : e.host = some st) :
    (st.RowByRid (attrOr m "Rid" "0") (headerTokensForView (attrOr m "Vid" "0")) = none →
      ∃ f : OutFrame, e.handleRowPg m = [f] ∧ f.tag = "RowPgRes" ∧
        mget f.attrs "HR" = "0x00000000" ∧ mget f.attrs "Count" = "0" ∧
        f.children = []) ∧
    (∀ row, st.RowByRid (attrOr m "Rid" "0") (headerTokensForView (attrOr m "Vid" "0")) = some row →
      ∃ f : OutFrame, e.handleRowPg m = [f] ∧ f.tag = "RowPgRes" ∧
        mget f.attrs "HR" = "0x00000000" ∧ mget f.attrs "Count" = "1" ∧
        f.children = [("Row", pageRowAttrs (headerTokensForView (attrOr m "Vid" "0")) row)]) ∧
    rowPgRowAttrs = pageRowAttrs := by
  refine ⟨?_, ?_, rfl⟩
  · intro hmiss
    refine ⟨OutFrame.mk "RowPgRes"
        [("HR", "0x00000000"), ("Cx", attrOr m "Cx" "0x0"),
         ("Vid", attrOr m "Vid" "0"), ("Rid", attrOr m "Rid" "0"),
         ("Num", xmlEscapeAttr (attrOr m "Num" "0")),
         ("Str", xmlEscapeAttr (mget m.attrs "Str")), ("Count", "0")]
        [] "send-rowpg-miss", ?_, rfl, ?_, ?_, rfl⟩
    · simp only [Engine.handleRowPg, hhost, hmiss]
    · simp [mget, List.find?]
    · simp [mget, List.find?]
  · intro row hhit
    refine ⟨OutFrame.mk "RowPgRes"
        [("HR", "0x00000000"), ("Cx", attrOr m "Cx" "0x0"),
         ("Vid", attrOr m "Vid" "0"), ("Rid", attrOr m "Rid" "0"),
         ("Num", xmlEscapeAttr (attrOr m "Num" "0")),
         ("Str", xmlEscapeAttr (mget m.attrs "Str")), ("Count", "1")]
        [("Row", pageRowAttrs (headerTokensForView (attrOr m "Vid" "0")) row)]
        "send-rowpg-hit", ?_, rfl, ?_, ?_, rfl⟩
    · simp only [Engine.handleRowPg, hhost, hhit]
      rfl
    · simp [mget, List.find?]
    · simp [mget, List.find?]

/-- Witness for C5: a details-request for row id `"7"` against the empty
Host Store answers success with zero rows. -/
theorem rowPg_details_contract_witness :
    HostStore.RowByRid NewHostStore
        (attrOr ⟨"RowPg", [("Vid", "301"), ("Rid", "7")], ""⟩ "Rid" "0")
        (headerTokensForView
          (attrOr ⟨"RowPg", [("Vid", "301"), ("Rid", "7")], ""⟩ "Vid" "0")) = none ∧
    ∃ f : OutFrame,
      Engine.handleRowPg ⟨2300, some NewHostStore, none⟩
          ⟨"RowPg", [("Vid", "301"), ("Rid", "7")], ""⟩ = [f] ∧
      f.tag = "RowPgRes" ∧
      mget f.attrs "HR" = "0x00000000" ∧ mget f.attrs "Count" = "0" ∧
      f.children = [] :=
  ⟨by decide,
   (rowPg_details_contract ⟨2300, some NewHostStore, none⟩ NewHostStore
      ⟨"RowPg", [("Vid", "301"), ("Rid", "7")], ""⟩ rfl).1 (by decide)⟩

end OpenZone

namespace OpenZone

/-- C10: once a peer is marked evicted, an inbound app-protocol payload
(one starting with `<`) from that peer is dropped before parsing: the
player registry, the engine (and with it the Host Store) are unchanged and
no outbound frame is produced. -/
theorem evictedPeer_messages_dropped (ps : PlayerStore) (e : Engine)
    (dpnid : Nat) (payload : String) (now : Int)
    (hev : ps.IsEvicted dpnid = true)
    (happ : payload.toList.head? = some '<') :
    handleReceiveEvent (some ps) e dpnid payload now = (some ps, e, []) := by
  unfold handleReceiveEvent
  rw [if_pos happ]
  simp [hev]

/-- Witness for C10: a page request from an evicted peer is dropped. -/
theorem evictedPeer_messages_dropped_witness :
    PlayerStore.IsEvicted ⟨[(5, ⟨5, 10, 20⟩)]⟩ 5 = true ∧
    ("<Page Vid=\"101\" />" : String).toList.head? = some '<' ∧
    handleReceiveEvent (some ⟨[(5, ⟨5, 10, 20⟩)]⟩) ⟨2300, some NewHostStore, none⟩
        5 "<Page Vid=\"101\" />" 0 =
      (some ⟨[(5, ⟨5, 10, 20⟩)]⟩, ⟨2300, some NewHostStore, none⟩, []) :=
  ⟨by decide, by decide,
   evictedPeer_messages_dropped ⟨[(5, ⟨5, 10, 20⟩)]⟩ ⟨2300, some NewHostStore, none⟩
     5 "<Page Vid=\"101\" />" 0 (by decide) (by decide)⟩

end OpenZone

namespace OpenZone

/-- C7: row ids start at 1 (`NewHostStore`), every freshly created
HostSession gets a rid in `[1, 0x7fffffff)`, the allocator stores `rid + 1`
for the next session, the assigned rid does not depend on the peer
identifier, and the successor of a fresh allocation is `rid + 1` unless that
would reach `0x7fffffff`, in which case it wraps back to 1. -/
theorem ridAllocation_policy :
    NewHostStore.nextRid = 1 ∧
    (∀ (s : HostStore) (fromId : Nat), aget s.hosts fromId = none →
      1 ≤ (s.getOrCreateLocked fromId).2.rid ∧
      (s.getOrCreateLocked fromId).2.rid < 0x7fffffff ∧
      (s.getOrCreateLocked fromId).1.nextRid = (s.getOrCreateLocked fromId).2.rid + 1) ∧
    (∀ (s : HostStore) (f1 f2 : Nat), aget s.hosts f1 = none →
      aget s.hosts f2 = none →
      (s.getOrCreateLocked f1).2.rid = (s.getOrCreateLocked f2).2.rid) ∧
    (∀ (s : HostStore) (f1 f2 : Nat), aget s.hosts f1 = none → f2 ≠ f1 →
      aget s.hosts f2 = none →
      ((s.getOrCreateLocked f1).1.getOrCreateLocked f2).2.rid =
        (if 0x7fffffff ≤ (s.getOrCreateLocked f1).2.rid + 1 then 1
         else (s.getOrCreateLocked f1).2.rid + 1)) := by
  refine ⟨rfl, ?_, ?_, ?_⟩
  · intro s fromId hnone
    simp only [HostStore.getOrCreateLocked, hnone]
    by_cases hw : s.nextRid = 0 ∨ 0x7fffffff ≤ s.nextRid
    · rw [if_pos hw]
      refine ⟨by norm_num, by norm_num, ?_⟩
      trivial
    · rw [if_neg hw]
      push_neg at hw
      refine ⟨by omega, by omega, ?_⟩
      trivial
  · intro s f1 f2 h1 h2
    simp only [HostStore.getOrCreateLocked, h1, h2]
  · intro s f1 f2 h1 hne h2
    have h2' : aget (s.getOrCreateLocked f1).1.hosts f2 = none := by
      simp only [HostStore.getOrCreateLocked, h1]
      rw [aget_aset_ne _ _ _ _ hne]
      exact h2
    simp only [HostStore.getOrCreateLocked, h1] at h2' ⊢
    rw [h2']
    by_cases hw : s.nextRid = 0 ∨ 0x7fffffff ≤ s.nextRid
    · rw [if_pos hw]
      simp only
      by_cases hb : (0x7fffffff : Nat) ≤ 1 + 1
      · omega
      · rw [if_neg hb]
        rw [if_neg (by omega : ¬ ((1 : Nat) + 1 = 0 ∨ 0x7fffffff ≤ 1 + 1))]
    · rw [if_neg hw]
      push_neg at hw
      simp only
      by_cases hb : (0x7fffffff : Nat) ≤ s.nextRid + 1
      · rw [if_pos hb]
        rw [if_pos (by omega : s.nextRid + 1 = 0 ∨ 0x7fffffff ≤ s.nextRid + 1)]
      · rw [if_neg hb]
        rw [if_neg (by omega : ¬ (s.nextRid + 1 = 0 ∨ 0x7fffffff ≤ s.nextRid + 1))]

/-- Witness for C7: allocation near the signed-32-bit boundary wraps back to
1 before reaching `0x7fffffff`. -/
theorem ridAllocation_policy_witness :
    aget (HostStore.hosts ⟨[], 0x7ffffffe⟩) 10 = none ∧
    (20 : Nat) ≠ 10 ∧
    aget (HostStore.hosts ⟨[], 0x7ffffffe⟩) 20 = none ∧
    ((HostStore.getOrCreateLocked ⟨[], 0x7ffffffe⟩ 10).1.getOrCreateLocked 20).2.rid =
      (if 0x7fffffff ≤ (HostStore.getOrCreateLocked ⟨[], 0x7ffffffe⟩ 10).2.rid + 1 then 1
       else (HostStore.getOrCreateLocked ⟨[], 0x7ffffffe⟩ 10).2.rid + 1) :=
  ⟨by decide, by decide, by decide,
   ridAllocation_policy.2.2.2 ⟨[], 0x7ffffffe⟩ 10 20 (by decide) (by decide) (by decide)⟩

end OpenZone

namespace OpenZone

theorem sweepStep_cases (eff maxAge : Int) (p : Player) :
    ((sweepStep eff maxAge p).2 = true ∧ p.evictedAt = 0 ∧
      (sweepStep eff maxAge p).1 = { p with evictedAt := eff }) ∨
    ((sweepStep eff maxAge p).2 = false ∧ (sweepStep eff maxAge p).1 = p) := by
  unfold sweepStep
  by_cases h1 : p.evictedAt ≠ 0
  · right
    simp [h1]
  · by_cases h2 : p.connectedAt = 0
    · left
      simp only [h1, h2]
      exact ⟨by simp, by simpa using h1, by simp⟩
    · by_cases h3 : maxAge ≤ eff - p.connectedAt
      · left
        simp only [h1, h2, h3]
        exact ⟨by simp [h2, h3], by simpa using h1, by simp [h2, h3]⟩
      · right
        simp [h1, h2, h3]

theorem sweep_count_eq (eff maxAge : Int) (heff : eff ≠ 0) :
    ∀ l : List (Nat × Player),
      ((l.map (fun kv => (kv.1, (sweepStep eff maxAge kv.2).1))).filter
          (fun kv => kv.2.evictedAt = 0)).length +
        (l.filter (fun kv => (sweepStep eff maxAge kv.2).2)).length =
      (l.filter (fun kv => kv.2.evictedAt = 0)).length := by
  intro l
  induction l with
  | nil => rfl
  | cons kv t ih =>
    obtain ⟨k, p⟩ := kv
    rcases sweepStep_cases eff maxAge p with ⟨hflag, hev, hst⟩ | ⟨hflag, hst⟩
    · have hne : ¬ (({ p with evictedAt := eff } : Player).evictedAt = 0) := by
        simpa using heff
      simp only [List.map_cons, List.filter_cons, hflag, hst, hev]
      simp [hne, hev]
      omega
    · simp only [List.map_cons, List.filter_cons, hflag, hst]
      by_cases hev : p.evictedAt = 0
      · simp [hev]
        omega
      · simp [hev]
        omega

/-- C8: a non-evicted player entry whose age at sweep time exceeds the
(positive) max age — or whose connect timestamp is unset — is marked evicted
by `SweepEvict` and returned in the newly-evicted set; it is then reported
by `IsEvicted`, excluded from `Count` (the count drops by exactly the number
of newly evicted entries), and a subsequent `Upsert` for it is a no-op. -/
theorem playerEviction_policy (s : PlayerStore) (now wall maxAge : Int)
    (d : Nat) (p : Player)
    (hmax : 0 < maxAge)
    (heff : (if now = 0 then wall else now) ≠ 0)
    (hl : s.lookup d = some p)
    (hactive : p.evictedAt = 0)
    (hold : p.connectedAt = 0 ∨
      maxAge < (if now = 0 then wall else now) - p.connectedAt) :
    d ∈ (s.SweepEvict now wall maxAge).2 ∧
    (s.SweepEvict now wall maxAge).1.IsEvicted d = true ∧
    (∀ t w : Int,
      (s.SweepEvict now wall maxAge).1.Upsert d t w = (s.SweepEvict now wall maxAge).1) ∧
    (s.SweepEvict now wall maxAge).1.Count + (s.SweepEvict now wall maxAge).2.length =
      s.Count := by
  set eff := (if now = 0 then wall else now) with heffdef
  have hnle : ¬ maxAge ≤ 0 := by omega
  have hsweep : s.SweepEvict now wall maxAge =
      (⟨s.players.map (fun kv => (kv.1, (sweepStep eff maxAge kv.2).1))⟩,
       (s.players.filter (fun kv => (sweepStep eff maxAge kv.2).2)).map
         (fun kv => kv.1)) := by
    unfold PlayerStore.SweepEvict
    rw [if_neg hnle]
  have hfind : s.players.find? (fun kv => kv.1 = d) = some (d, p) := by
    unfold PlayerStore.lookup at hl
    cases hf : s.players.find? (fun kv => kv.1 = d) with
    | none => rw [hf] at hl; exact absurd hl (by simp)
    | some kv0 =>
      rw [hf] at hl
      have hkey : kv0.1 = d := by
        have := List.find?_some hf
        simpa using this
      have hval : kv0.2 = p := by simpa using hl
      rw [← hkey, ← hval]
  have hstep : (sweepStep eff maxAge p).2 = true ∧
      (sweepStep eff maxAge p).1 = { p with evictedAt := eff } := by
    rcases sweepStep_cases eff maxAge p with ⟨h1, _, h3⟩ | ⟨h1, h2⟩
    · exact ⟨h1, h3⟩
    · exfalso
      unfold sweepStep at h1 h2
      simp only [hactive] at h1 h2
      rcases hold with hc | hage
      · simp [hc] at h1
      · have hle : maxAge ≤ eff - p.connectedAt := le_of_lt hage
        by_cases hc : p.connectedAt = 0
        · simp [hc] at h1
        · simp [hc, hle] at h1
  have hmem : (d, p) ∈ s.players := List.mem_of_find?_eq_some hfind
  have hlookup' : (s.SweepEvict now wall maxAge).1.lookup d =
      some { p with evictedAt := eff } := by
    rw [hsweep]
    unfold PlayerStore.lookup
    have hmapfind :
        (s.players.map (fun kv => (kv.1, (sweepStep eff maxAge kv.2).1))).find?
            (fun kv => kv.1 = d) =
          some (d, (sweepStep eff maxAge p).1) := by
      rw [List.find?_map]
      have hcomp : ((fun kv : Nat × Player => decide (kv.1 = d)) ∘
          (fun kv : Nat × Player => (kv.1, (sweepStep eff maxAge kv.2).1))) =
          (fun kv : Nat × Player => decide (kv.1 = d)) := rfl
      rw [hcomp, hfind]
      rfl
    rw [hmapfind, hstep.2]
  refine ⟨?_, ?_, ?_, ?_⟩
  · rw [hsweep]
    simp only [List.mem_map]
    refine ⟨(d, p), ?_, rfl⟩
    rw [List.mem_filter]
    exact ⟨hmem, hstep.1⟩
  · unfold PlayerStore.IsEvicted
    rw [hlookup']
    simpa using heff
  · intro t w
    have hcond : ({ p with evictedAt := eff } : Player).evictedAt ≠ 0 := by
      simpa using heff
    unfold PlayerStore.Upsert
    rw [hlookup']
    simp [hcond]
  · rw [hsweep]
    unfold PlayerStore.Count
    simp only [List.length_map]
    exact sweep_count_eq eff maxAge heff s.players

/-- Witness for C8 at a concrete over-age entry. -/
theorem playerEviction_policy_witness :
    (0 : Int) < 50 ∧
    ((if (1000000 : Int) = 0 then 0 else 1000000) ≠ 0) ∧
    PlayerStore.lookup ⟨[(7, ⟨7, 100, 0⟩)]⟩ 7 = some ⟨7, 100, 0⟩ ∧
    (Player.evictedAt ⟨7, 100, 0⟩ = 0) ∧
    7 ∈ (PlayerStore.SweepEvict ⟨[(7, ⟨7, 100, 0⟩)]⟩ 1000000 0 50).2 ∧
    (PlayerStore.SweepEvict ⟨[(7, ⟨7, 100, 0⟩)]⟩ 1000000 0 50).1.IsEvicted 7 = true ∧
    (PlayerStore.SweepEvict ⟨[(7, ⟨7, 100, 0⟩)]⟩ 1000000 0 50).1.Count +
        (PlayerStore.SweepEvict ⟨[(7, ⟨7, 100, 0⟩)]⟩ 1000000 0 50).2.length =
      PlayerStore.Count ⟨[(7, ⟨7, 100, 0⟩)]⟩ := by
  have h := playerEviction_policy ⟨[(7, ⟨7, 100, 0⟩)]⟩ 1000000 0 50 7 ⟨7, 100, 0⟩
    (by decide) (by decide) (by decide) (by decide)
    (Or.inr (by decide))
  exact ⟨by decide, by decide, by decide, by decide, h.1, h.2.1, h.2.2.2⟩

end OpenZone

namespace OpenZone

theorem aget_some_mem {β : Type} (m : List (Nat × β)) (k : Nat) (v : β)
    (h : aget m k = some v) : (k, v) ∈ m := by
  unfold aget at h
  cases hf : m.find? (fun kv => kv.1 = k) with
  | none => rw [hf] at h; exact absurd h (by simp)
  | some kv0 =>
    rw [hf] at h
    have hkey : kv0.1 = k := by
      have := List.find?_some hf
      simpa using this
    have hval : kv0.2 = v := by simpa using h
    have hmem := List.mem_of_find?_eq_some hf
    rw [← hkey, ← hval]
    exact hmem

theorem aerase_of_not_mem {β : Type} (m : List (Nat × β)) (k : Nat)
    (h : k ∉ m.map Prod.fst) : aerase m k = m := by
  induction m with
  | nil => rfl
  | cons kv t ih =>
    simp only [List.map_cons, List.mem_cons] at h
    push_neg at h
    obtain ⟨a, b⟩ := kv
    rw [aerase_cons, if_neg (fun he => h.1 he.symm)]
    rw [ih h.2]

theorem visibleCount_aerase (m : List (Nat × HostSession)) (k : Nat)
    (h : HostSession) (hnod : (m.map Prod.fst).Nodup)
    (hget : aget m k = some h) :
    ((aerase m k).filter (fun kv => hostVisible kv.2)).length +
        (if hostVisible h then 1 else 0) =
      (m.filter (fun kv => hostVisible kv.2)).length := by
  induction m with
  | nil => simp [aget] at hget
  | cons kv t ih =>
    obtain ⟨a, b⟩ := kv
    simp only [List.map_cons, List.nodup_cons] at hnod
    rw [aget_cons] at hget
    by_cases ha : a = k
    · rw [if_pos ha] at hget
      have hb : b = h := by simpa using hget
      subst hb
      subst ha
      rw [aerase_cons, if_pos rfl, aerase_of_not_mem t a hnod.1]
      rw [List.filter_cons]
      by_cases hv : hostVisible b
      · simp [hv]
      · simp [hv]
    · rw [if_neg ha] at hget
      rw [aerase_cons, if_neg ha]
      rw [List.filter_cons, List.filter_cons]
      by_cases hv : hostVisible b
      · simp only [hv, if_pos]
        simp only [List.length_cons]
        have := ih hnod.2 hget
        omega
      · simp only [hv]
        simp only [Bool.false_eq_true, if_false]
        exact ih hnod.2 hget

theorem mem_gamesRows (s : HostStore) (maxRows : Int) (headers : List String)
    (r : GameRow) (hr : r ∈ s.GamesRows maxRows headers) :
    ∃ (k : Nat) (h : HostSession), aget s.hosts k = some h ∧
      hostVisible h = true ∧
      r = { rid := toString h.rid, items := gamesRowItems (toString h.rid) h } := by
  unfold HostStore.GamesRows at hr
  have H : ∀ (keys : List Nat) (acc : List GameRow),
      r ∈ keys.foldl (fun out k =>
        if 0 < maxRows ∧ maxRows ≤ (out.length : Int) then out
        else
          match aget s.hosts k with
          | none => out
          | some h =>
            if hostVisible h then
              out ++ [{ rid := toString h.rid,
                        items := gamesRowItems (toString h.rid) h }]
            else out) acc →
      r ∈ acc ∨ ∃ (k : Nat) (h : HostSession), aget s.hosts k = some h ∧
        hostVisible h = true ∧
        r = { rid := toString h.rid, items := gamesRowItems (toString h.rid) h } := by
    intro keys
    induction keys with
    | nil => intro acc hacc; exact Or.inl hacc
    | cons k0 keys ih =>
      intro acc hacc
      simp only [List.foldl_cons] at hacc
      rcases ih _ hacc with hmem | hex
      · by_cases hcap : 0 < maxRows ∧ maxRows ≤ (acc.length : Int)
        · rw [if_pos hcap] at hmem
          exact Or.inl hmem
        · rw [if_neg hcap] at hmem
          cases hget : aget s.hosts k0 with
          | none => simp only [hget] at hmem; exact Or.inl hmem
          | some h0 =>
            simp only [hget] at hmem
            by_cases hv : hostVisible h0
            · rw [if_pos hv] at hmem
              rcases List.mem_append.mp hmem with hin | hnew
              · exact Or.inl hin
              · refine Or.inr ⟨k0, h0, hget, hv, ?_⟩
                simpa using hnew
            · rw [if_neg hv] at hmem
              exact Or.inl hmem
      · exact Or.inr hex
  rcases H _ _ hr with hnil | hex
  · simp at hnil
  · exact hex

end OpenZone

namespace OpenZone

/-- C4: a publish item with exactly one attribute, the positional `Num`
(no `ItemId`), is a delete: value `"0"` clears the session fields, any other
value removes that player's field map; and when both field collections are
(or become) empty the whole HostSession is deleted — the peer disappears
from the host map, from `VisibleGamesCount`, from `GamesRows`, and (when no
other session shares the rid string) from `RowByRid`. -/
theorem hostData_delete_shape
    (s : HostStore) (fromId : Nat) (now : Int) (payload : String)
    (h : HostSession) (headers : List String)
    (hget : aget s.hosts fromId = some h)
    (hscan : scanSelfClosingElements payload "Item" = [[("Num", "0")]])
    (hpl : h.players = []) :
    (∀ (h0 : HostSession) (inMap : Bool) (v : String),
      (v = "0" → applyHostItem (h0, inMap) [("Num", v)] =
        ({ h0 with server := [] },
         if h0.players = [] then false else inMap)) ∧
      (v ≠ "0" → applyHostItem (h0, inMap) [("Num", v)] =
        ({ h0 with players := aerase h0.players v },
         if h0.server = [] ∧ aerase h0.players v = [] then false else inMap))) ∧
    (s.ApplyHostData fromId now payload).hosts = aerase s.hosts fromId ∧
    aget (s.ApplyHostData fromId now payload).hosts fromId = none ∧
    ((s.hosts.map Prod.fst).Nodup →
      (s.ApplyHostData fromId now payload).VisibleGamesCount +
          (if hostVisible h then 1 else 0) = s.VisibleGamesCount) ∧
    ((∀ kv ∈ s.hosts, kv.1 ≠ fromId → toString kv.2.rid ≠ toString h.rid) →
      (s.ApplyHostData fromId now payload).RowByRid (toString h.rid) headers = none ∧
      (∀ r ∈ (s.ApplyHostData fromId now payload).GamesRows 0 headers,
        r.rid ≠ toString h.rid)) := by
  have hitem : ∀ (h0 : HostSession) (inMap : Bool) (v : String),
      (v = "0" → applyHostItem (h0, inMap) [("Num", v)] =
        ({ h0 with server := [] },
         if h0.players = [] then false else inMap)) ∧
      (v ≠ "0" → applyHostItem (h0, inMap) [("Num", v)] =
        ({ h0 with players := aerase h0.players v },
         if h0.server = [] ∧ aerase h0.players v = [] then false
         else inMap)) := by
    intro h0 inMap v
    constructor
    · intro hv
      subst hv
      simp [applyHostItem, mget, mhas, List.find?]
      by_cases hq : h0.players = []
      · simp [hq]
      · simp [hq]
    · intro hv
      simp [applyHostItem, mget, mhas, List.find?, hv]
      by_cases h1 : h0.server = []
      · by_cases h2 : aerase h0.players v = []
        · simp [h1, h2]
        · simp [h1, h2]
      · simp [h1]
  have hmain : s.ApplyHostData fromId now payload =
      { s with hosts := aerase s.hosts fromId } := by
    unfold HostStore.ApplyHostData
    rw [hscan]
    simp only [List.length_cons, List.length_nil]
    rw [if_neg (by omega : ¬ (0 + 1 = 0))]
    simp only [HostStore.getOrCreateLocked, hget]
    have hstep := (hitem { h with lastUpdate := now } true "0").1 rfl
    simp only [List.foldl_cons, List.foldl_nil, hstep]
    have hq : ({ h with lastUpdate := now } : HostSession).players = [] := by
      simpa using hpl
    rw [if_pos hq]
    simp
  refine ⟨hitem, ?_, ?_, ?_, ?_⟩
  · rw [hmain]
  · rw [hmain]
    exact aget_aerase_self s.hosts fromId
  · intro hnod
    rw [hmain]
    unfold HostStore.VisibleGamesCount
    exact visibleCount_aerase s.hosts fromId h hnod hget
  · intro hfresh
    constructor
    · rw [hmain]
      unfold HostStore.RowByRid
      have hnone : (aerase s.hosts fromId).find?
          (fun kv => toString kv.2.rid = toString h.rid) = none := by
        rw [List.find?_eq_none]
        intro kv hkv
        obtain ⟨hmem, hne⟩ := (mem_aerase s.hosts fromId kv).mp hkv
        simpa using hfresh kv hmem hne
      rw [hnone]
    · intro r hr
      rw [hmain] at hr
      obtain ⟨k, h', hget', hv', hreq⟩ := mem_gamesRows _ _ _ _ hr
      have hmem' := aget_some_mem _ _ _ hget'
      obtain ⟨hmem, hne⟩ := (mem_aerase s.hosts fromId (k, h')).mp hmem'
      have := hfresh (k, h') hmem hne
      rw [hreq]
      simpa using this

end OpenZone

namespace OpenZone

set_option maxRecDepth 200000

/-- Witness for C4: after one upsert publish for peer 34, the delete-shape
payload removes the whole HostSession: the host map, the visible count and
`RowByRid` all stop reporting it. -/
theorem hostData_delete_shape_witness :
    aget (HostStore.ApplyHostData NewHostStore 34 5
        "<HostData><New><Item ItemId=\"0\" GName=\"x\" Map=\"y\" Ip2=\"203.0.113.10\" /></New></HostData>").hosts 34 =
      some ⟨5, 1, "", "", [("GName", "x"), ("Map", "y"), ("Ip2", "203.0.113.10")], []⟩ ∧
    scanSelfClosingElements "<Del><Item Num=\"0\" /></Del>" "Item" = [[("Num", "0")]] ∧
    aget ((HostStore.ApplyHostData NewHostStore 34 5
        "<HostData><New><Item ItemId=\"0\" GName=\"x\" Map=\"y\" Ip2=\"203.0.113.10\" /></New></HostData>").ApplyHostData
          34 6 "<Del><Item Num=\"0\" /></Del>").hosts 34 = none ∧
    ((HostStore.ApplyHostData NewHostStore 34 5
        "<HostData><New><Item ItemId=\"0\" GName=\"x\" Map=\"y\" Ip2=\"203.0.113.10\" /></New></HostData>").ApplyHostData
          34 6 "<Del><Item Num=\"0\" /></Del>").VisibleGamesCount +
      (if hostVisible ⟨5, 1, "", "", [("GName", "x"), ("Map", "y"), ("Ip2", "203.0.113.10")], []⟩ then 1 else 0) =
      (HostStore.ApplyHostData NewHostStore 34 5
        "<HostData><New><Item ItemId=\"0\" GName=\"x\" Map=\"y\" Ip2=\"203.0.113.10\" /></New></HostData>").VisibleGamesCount ∧
    ((HostStore.ApplyHostData NewHostStore 34 5
        "<HostData><New><Item ItemId=\"0\" GName=\"x\" Map=\"y\" Ip2=\"203.0.113.10\" /></New></HostData>").ApplyHostData
          34 6 "<Del><Item Num=\"0\" /></Del>").RowByRid
        (toString (HostSession.rid ⟨5, 1, "", "", [("GName", "x"), ("Map", "y"), ("Ip2", "203.0.113.10")], []⟩)) [] = none := by
  have h := hostData_delete_shape
    (HostStore.ApplyHostData NewHostStore 34 5
      "<HostData><New><Item ItemId=\"0\" GName=\"x\" Map=\"y\" Ip2=\"203.0.113.10\" /></New></HostData>")
    34 6 "<Del><Item Num=\"0\" /></Del>"
    ⟨5, 1, "", "", [("GName", "x"), ("Map", "y"), ("Ip2", "203.0.113.10")], []⟩ []
    (by decide) (by decide) rfl
  exact ⟨by decide, by decide, h.2.2.1, h.2.2.2.1 (by decide),
    (h.2.2.2.2 (by decide)).1⟩

end OpenZone

namespace OpenZone

theorem parseHostIpList_fst_empty (raw : String)
    (h : (parseHostIpList raw).1 = "") : parseHostIpList raw = ("", "") := by
  unfold parseHostIpList at h ⊢
  by_cases ht : trimString raw = ""
  · rw [if_pos ht]
  · rw [if_neg ht] at h ⊢
    cases hfields : (fieldsBy
        (fun r => r = ',' ∨ r = ' ' ∨ r = '\t' ∨ r = '\r' ∨ r = '\n')
        (trimString raw).toList).map String.mk with
    | nil => simp [hfields]
    | cons t0 rest =>
      exfalso
      simp only [hfields] at h
      obtain ⟨f, hf, hfx⟩ := List.mem_map.mp (by
        rw [hfields]
        exact List.mem_cons_self t0 rest)
      apply fieldsByAux_ne_nil _ _ [] f hf
      have : t0 = "" := h
      exact congrArg String.data (hfx.trans this)

/-- C3: the browse-row address policy.  (i) When an observed remote address
is recorded it is the primary, and a session-advertised address becomes the
secondary only if it is non-empty, differs from the primary and is not
loopback/private — otherwise the secondary duplicates the primary.  (ii)
With no observed address the pair comes entirely from the session-published
addresses, and (iii) when no explicit `IpAddr` field was published this is
exactly the published `Ip2` list parsed by `parseHostIpList`, which (iv)
implements the spec's first-token / first-distinct-subsequent-token /
single-token-duplicates policy. -/
theorem addressSelection_policy :
    (∀ h : HostSession, trimString h.observedRemoteIP ≠ "" →
      (hostBrowseIPs h).1 = h.observedRemoteIP ∧
      ((hostBrowseIPs h).2 = h.observedRemoteIP ∨
        ((hostBrowseIPs h).2 ≠ h.observedRemoteIP ∧
         isPrivateIP (hostBrowseIPs h).2 = false ∧
         ((hostBrowseIPs h).2 = (hostAdvertisedIPs h.server).1 ∨
          (hostBrowseIPs h).2 = (hostAdvertisedIPs h.server).2)))) ∧
    (∀ h : HostSession, trimString h.observedRemoteIP = "" →
      hostBrowseIPs h = hostAdvertisedIPs h.server) ∧
    (∀ server : List (String × String), trimString (mget server "IpAddr") = "" →
      hostAdvertisedIPs server = parseHostIpList (trimString (mget server "Ip2"))) ∧
    (∀ raw : String, parseHostIpList raw = specIpListPolicy raw) := by
  refine ⟨?_, ?_, ?_, parseHostIpList_eq_spec⟩
  · intro h hobs
    have hb : hostBrowseIPs h = (h.observedRemoteIP,
        if (hostAdvertisedIPs h.server).1 ≠ "" ∧
            (hostAdvertisedIPs h.server).1 ≠ h.observedRemoteIP ∧
            ¬ (isPrivateIP (hostAdvertisedIPs h.server).1 = true) then
          (hostAdvertisedIPs h.server).1
        else if (hostAdvertisedIPs h.server).2 ≠ "" ∧
            (hostAdvertisedIPs h.server).2 ≠ h.observedRemoteIP ∧
            ¬ (isPrivateIP (hostAdvertisedIPs h.server).2 = true) then
          (hostAdvertisedIPs h.server).2
        else h.observedRemoteIP) := by
      unfold hostBrowseIPs
      rw [if_pos hobs]
    rw [hb]
    refine ⟨rfl, ?_⟩
    by_cases c1 : (hostAdvertisedIPs h.server).1 ≠ "" ∧
        (hostAdvertisedIPs h.server).1 ≠ h.observedRemoteIP ∧
        ¬ (isPrivateIP (hostAdvertisedIPs h.server).1 = true)
    · simp only [if_pos c1]
      exact Or.inr ⟨c1.2.1, by simpa using c1.2.2, Or.inl trivial⟩
    · simp only [if_neg c1]
      by_cases c2 : (hostAdvertisedIPs h.server).2 ≠ "" ∧
          (hostAdvertisedIPs h.server).2 ≠ h.observedRemoteIP ∧
          ¬ (isPrivateIP (hostAdvertisedIPs h.server).2 = true)
      · simp only [if_pos c2]
        exact Or.inr ⟨c2.2.1, by simpa using c2.2.2, Or.inr trivial⟩
      · simp only [if_neg c2]
        exact Or.inl trivial
  · intro h hobs
    unfold hostBrowseIPs
    rw [if_neg (by simpa using hobs)]
  · intro server hip
    have hb : hostAdvertisedIPs server =
        (if trimString (mget server "Ip2") = "" ∧
            trimString (mget server "IpAddr") = "" then ("", "")
         else if trimString (mget server "IpAddr") = "" ∧
             (parseHostIpList (trimString (mget server "Ip2"))).1 ≠ "" then
           ((parseHostIpList (trimString (mget server "Ip2"))).1,
            (parseHostIpList (trimString (mget server "Ip2"))).2)
         else if trimString (mget server "IpAddr") ≠ "" ∧
             trimString (mget server "Ip2") ≠ "" then
           (trimString (mget server "IpAddr"),
            if (parseHostIpList (trimString (mget server "Ip2"))).2 ≠ "" ∧
                (parseHostIpList (trimString (mget server "Ip2"))).2 ≠
                  trimString (mget server "IpAddr") then
              (parseHostIpList (trimString (mget server "Ip2"))).2
            else if (parseHostIpList (trimString (mget server "Ip2"))).1 ≠ "" ∧
                (parseHostIpList (trimString (mget server "Ip2"))).1 ≠
                  trimString (mget server "IpAddr") then
              (parseHostIpList (trimString (mget server "Ip2"))).1
            else trimString (mget server "IpAddr"))
         else if trimString (mget server "IpAddr") ≠ "" then
           (trimString (mget server "IpAddr"), trimString (mget server "IpAddr"))
         else (trimString (mget server "IpAddr"), "")) := rfl
    rw [hb]
    by_cases hraw : trimString (mget server "Ip2") = ""
    · rw [if_pos ⟨hraw, hip⟩, hraw]
      rfl
    · rw [if_neg (by
        intro hc
        exact hraw hc.1)]
      by_cases hp : (parseHostIpList (trimString (mget server "Ip2"))).1 ≠ ""
      · rw [if_pos ⟨hip, hp⟩]
      · rw [if_neg (by
          intro hc
          exact hp hc.2)]
        rw [if_neg (by
          intro hc
          exact hc.1 hip)]
        rw [if_neg (by
          intro hc
          exact hc hip)]
        push_neg at hp
        rw [hip, parseHostIpList_fst_empty _ hp]

/-- Witness for C3: with observed address `203.0.113.5` and published list
`10.0.0.1 8.8.8.8`, the primary is the observed address and the secondary is
the first routable distinct advertised address. -/
theorem addressSelection_policy_witness :
    trimString (HostSession.observedRemoteIP
        ⟨0, 1, "", "203.0.113.5", [("Ip2", "10.0.0.1 8.8.8.8")], []⟩) ≠ "" ∧
    (hostBrowseIPs ⟨0, 1, "", "203.0.113.5", [("Ip2", "10.0.0.1 8.8.8.8")], []⟩).1 =
      HostSession.observedRemoteIP
        ⟨0, 1, "", "203.0.113.5", [("Ip2", "10.0.0.1 8.8.8.8")], []⟩ ∧
    trimString (mget [("Ip2", "10.0.0.1 8.8.8.8")] "IpAddr") = "" ∧
    hostAdvertisedIPs [("Ip2", "10.0.0.1 8.8.8.8")] =
      parseHostIpList (trimString (mget [("Ip2", "10.0.0.1 8.8.8.8")] "Ip2")) ∧
    parseHostIpList "10.0.0.1 8.8.8.8" = specIpListPolicy "10.0.0.1 8.8.8.8" ∧
    (hostBrowseIPs ⟨0, 1, "", "203.0.113.5", [("Ip2", "10.0.0.1 8.8.8.8")], []⟩).2 =
      "8.8.8.8" := by
  have h1 := (addressSelection_policy.1
    ⟨0, 1, "", "203.0.113.5", [("Ip2", "10.0.0.1 8.8.8.8")], []⟩ (by decide)).1
  have h3 := addressSelection_policy.2.2.1 [("Ip2", "10.0.0.1 8.8.8.8")] (by decide)
  have h4 := addressSelection_policy.2.2.2 "10.0.0.1 8.8.8.8"
  exact ⟨by decide, h1, by decide, h3, h4, by decide⟩

end OpenZone
